import Mathlib

/-!
Verification of the metal-color transformation pipeline.

Shallow embedding of the pixel-level color pipeline:
* `src/pages/Index.tsx` — direct-HSV transfer strategy (`rgbToHsv`, `hsvToRgb`,
  `transformGoldColor`); its arithmetic is exact rational arithmetic, so it is
  embedded over `ℚ` (JS `Math.random()` is made explicit as a `jitter` argument).
* `src/utils/colorSpaceUtils.ts` — RGB/XYZ/Lab conversions, embedded over `ℝ`
  (they use real powers and roots).
* `src/utils/colorConverter.ts` — Lab anchor-interpolation transfer, k-means
  clustering, cluster classification, reflection detection.
* `src/utils/imageEnhancer.ts` — artifact suppression and the deterministic
  sharpening fallback.

Pixel buffers are modelled as functions `ℕ → ℤ` (RGBA, 4 cells per pixel,
index `4*p + c`); per-pixel write loops whose writes touch only the written
pixel's own cells and whose reads come from the immutable input are modelled
by `pixelPass`, a fold over the written pixel indices.
-/

namespace MetalDetect

/-! ### JavaScript numeric primitives (exact-real semantics) -/

/-- JS truncation toward zero (used by the `%` operator). -/
def jsTruncQ (q : ℚ) : ℤ := if q < 0 then -⌊-q⌋ else ⌊q⌋

/-- JS `%` on numbers: remainder with the sign of the dividend. -/
def jsModQ (x y : ℚ) : ℚ := x - y * (jsTruncQ (x / y) : ℚ)

/-- JS `Math.round`: round half toward positive infinity. -/
def jsRoundQ (x : ℚ) : ℤ := ⌊x + 1/2⌋

/-! ### Direct-HSV strategy (`src/pages/Index.tsx`) -/

inductive MetalColor where
  | yellow
  | rose
deriving DecidableEq, Repr

structure Hsv where
  h : ℚ
  s : ℚ
  v : ℚ
deriving DecidableEq, Repr

/-- `rgbToHsv` from `Index.tsx`. -/
def rgbToHsv (r g b : ℚ) : Hsv :=
  let rNorm := r / 255
  let gNorm := g / 255
  let bNorm := b / 255
  let max' := max (max rNorm gNorm) bNorm
  let min' := min (min rNorm gNorm) bNorm
  let delta := max' - min'
  let h0 : ℚ :=
    if delta ≠ 0 then
      if max' = rNorm then 60 * jsModQ ((gNorm - bNorm) / delta) 6
      else if max' = gNorm then 60 * ((bNorm - rNorm) / delta + 2)
      else 60 * ((rNorm - gNorm) / delta + 4)
    else 0
  let h := if h0 < 0 then h0 + 360 else h0
  let s := if max' = 0 then 0 else delta / max'
  ⟨h, s, max'⟩

/-- `hsvToRgb` from `Index.tsx`. -/
def hsvToRgb (h s v : ℚ) : ℤ × ℤ × ℤ :=
  let c := v * s
  let x := c * (1 - |jsModQ (h / 60) 2 - 1|)
  let m := v - c
  let rgb : ℚ × ℚ × ℚ :=
    if 0 ≤ h ∧ h < 60 then (c, x, 0)
    else if 60 ≤ h ∧ h < 120 then (x, c, 0)
    else if 120 ≤ h ∧ h < 180 then (0, c, x)
    else if 180 ≤ h ∧ h < 240 then (0, x, c)
    else if 240 ≤ h ∧ h < 300 then (x, 0, c)
    else (c, 0, x)
  (jsRoundQ ((rgb.1 + m) * 255), jsRoundQ ((rgb.2.1 + m) * 255), jsRoundQ ((rgb.2.2 + m) * 255))

/-- `transformGoldColor` from `Index.tsx`.  The source calls `Math.random()`
once on the "dramatic shift" paths; that draw is made explicit as the
`jitter` argument (a value in `[0,1)` supplied by the JS runtime). -/
def transformGoldColor (r g b : ℚ) (targetColor : MetalColor) (jitter : ℚ) : ℤ × ℤ × ℤ :=
  let hsv := rgbToHsv r g b
  let initialLuminance := 0.299 * r + 0.587 * g + 0.114 * b
  let isCurrentlyYellow :=
    (30 ≤ hsv.h ∧ hsv.h ≤ 60) ∨ (0.3 ≤ hsv.s ∧ hsv.s ≤ 0.95 ∧ 0.6 ≤ hsv.v)
  let isCurrentlyRose :=
    (345 ≤ hsv.h ∨ hsv.h ≤ 20) ∨ (15 ≤ hsv.h ∧ hsv.h ≤ 30 ∧ 0.4 ≤ hsv.s)
  let goldConfidence := min (hsv.s * 1.5) 1.0 * min (hsv.v * 1.2) 1.0
  let hsv1 : Hsv :=
    if targetColor = MetalColor.yellow then
      let h1 := if isCurrentlyRose then 45 + (jitter * 5 - 2.5) else hsv.h * 0.2 + 36
      let s1 := hsv.s * (0.7 + 0.3 * goldConfidence) + 0.1
      let s2 := max 0.3 (min 0.95 s1)
      let v1 := hsv.v * 0.85 + 0.15
      let v2 := max 0.5 (min 0.95 v1)
      ⟨h1, s2, v2⟩
    else
      let h1 :=
        if isCurrentlyYellow then 5 + (jitter * 5 - 2.5)
        else if 180 < hsv.h then 358 else max 0 (min 15 hsv.h)
      let s1 := hsv.s * (0.8 + 0.2 * goldConfidence)
      let s2 := max 0.25 (min 0.85 s1)
      let v1 := hsv.v * 0.9 + 0.05
      let v2 := max 0.4 (min 0.9 v1)
      ⟨h1, s2, v2⟩
  let newColor := hsvToRgb hsv1.h hsv1.s hsv1.v
  let newLuminance : ℚ :=
    0.299 * newColor.1 + 0.587 * newColor.2.1 + 0.114 * newColor.2.2
  let lumScale := initialLuminance / max 1 newLuminance
  let luminanceFactor := max 0.7 (min 1.3 lumScale)
  (min 255 (max 0 (jsRoundQ (newColor.1 * luminanceFactor))),
   min 255 (max 0 (jsRoundQ (newColor.2.1 * luminanceFactor))),
   min 255 (max 0 (jsRoundQ (newColor.2.2 * luminanceFactor))))

/-! ### Pixel buffers and per-pixel write loops

A decoded RGBA buffer is a function `ℕ → ℤ` (cell `4*p + c` holds channel `c`
of pixel `p`).  All per-pixel loops in the source either write nothing for a
pixel or write exactly that pixel's channels 0-2, reading only from the
immutable input buffer; `pixelPass` folds such writes over a list of pixel
indices, mirroring the JS loops. -/

/-- Write one cell of a buffer. -/
def updateBuf (f : ℕ → ℤ) (i : ℕ) (v : ℤ) : ℕ → ℤ := fun j => if j = i then v else f j

/-- One iteration of a per-pixel write loop: `some (r, gr, b)` writes channels
0-2 of pixel `p`, `none` leaves the buffer alone. -/
def writePixel (buf : ℕ → ℤ) (p : ℕ) : Option (ℤ × ℤ × ℤ) → (ℕ → ℤ)
  | none => buf
  | some (r, gr, b) =>
      updateBuf (updateBuf (updateBuf buf (4 * p) r) (4 * p + 1) gr) (4 * p + 2) b

/-- Fold a per-pixel write loop over the pixel indices in `l`. -/
def pixelPass (init : ℕ → ℤ) (l : List ℕ) (g : ℕ → Option (ℤ × ℤ × ℤ)) : ℕ → ℤ :=
  l.foldl (fun buf p => writePixel buf p (g p)) init

/-- Value selected by a pixel's writes at cell `i` of that pixel. -/
def cellValue (o : Option (ℤ × ℤ × ℤ)) (dflt : ℤ) (c : ℕ) : ℤ :=
  match o with
  | none => dflt
  | some (r, gr, b) => if c = 0 then r else if c = 1 then gr else if c = 2 then b else dflt

/-- Interior pixel indices (x in `[1, width-1)`, y in `[1, height-1)`), in the
row-major order the JS loops visit them. -/
def interiorPixels (width height : ℕ) : List ℕ :=
  (List.range (width * height)).filter fun p =>
    1 ≤ p % width ∧ p % width < width - 1 ∧ 1 ≤ p / width ∧ p / width < height - 1

/-! ### `detectReflections` (`src/utils/colorConverter.ts`) -/

/-- `detectReflections`: per-pixel highlight strength from luminance thresholds.
The JS loop writes each pixel of a zero-initialized `Uint8Array` once, so it is
modelled pointwise. -/
def detectReflections (imageData : ℕ → ℤ) (width height : ℕ) (metalMask : ℕ → ℕ) : ℕ → ℕ :=
  fun pixelIndex =>
    if pixelIndex < width * height ∧ metalMask pixelIndex > 0 then
      let r : ℚ := imageData (4 * pixelIndex)
      let g : ℚ := imageData (4 * pixelIndex + 1)
      let b : ℚ := imageData (4 * pixelIndex + 2)
      let luminance := 0.299 * r + 0.587 * g + 0.114 * b
      if luminance > 200 then 255
      else if luminance > 170 then 200
      else if luminance > 140 then 150
      else 0
    else 0

/-! ### `imageEnhancer.ts`: artifact suppression and sharpening fallback -/

/-- The 3×3 neighborhood values of channel `c` of interior pixel `p`, gathered
in the order of the JS loops (`dy` outer, `dx` inner). -/
def neighborhood3x3 (data : ℕ → ℤ) (width p c : ℕ) : List ℤ :=
  let x := p % width
  let y := p / width
  ((List.range 3).map fun dy =>
    (List.range 3).map fun dx => data (4 * ((y - 1 + dy) * width + (x - 1 + dx)) + c)).flatten

/-- Median of the 3×3 neighborhood: middle element after an ascending sort
(JS `values.sort((a, b) => a - b); values[4]`). -/
def median9 (data : ℕ → ℤ) (width p c : ℕ) : ℤ :=
  ((neighborhood3x3 data width p c).insertionSort (· ≤ ·)).getD 4 0

/-- The `variance` value computed by `isArtifact`: mean color distance to the
in-bounds 4-connected neighbors (`len` is the JS `data.length`, i.e.
`4 * width * height`). -/
noncomputable def isArtifactVar (data : ℕ → ℤ) (len width idx : ℕ) : ℝ :=
  let r : ℝ := data idx
  let g : ℝ := data (idx + 1)
  let b : ℝ := data (idx + 2)
  let neighbors : List ℤ :=
    [(idx : ℤ) - width * 4, (idx : ℤ) + width * 4, (idx : ℤ) - 4, (idx : ℤ) + 4]
  let valid := neighbors.filter fun n => 0 ≤ n ∧ n < (len : ℤ)
  let dists := valid.map fun n =>
    Real.sqrt ((r - data n.toNat) ^ 2 + (g - data (n.toNat + 1)) ^ 2 + (b - data (n.toNat + 2)) ^ 2)
  if 0 < valid.length then (dists.foldl (· + ·) 0) / valid.length else 0

/-- `isArtifact`: the mean neighbor color distance exceeds the threshold 40. -/
def isArtifact (data : ℕ → ℤ) (len width idx : ℕ) : Prop :=
  isArtifactVar data len width idx > 40

open Classical in
/-- `removeArtifacts`: 3×3 median filter applied to the channels of every
interior pixel flagged by `isArtifact`; all other cells keep the input value
(the output starts as a copy of `data`). -/
noncomputable def removeArtifacts (data : ℕ → ℤ) (width height : ℕ) : ℕ → ℤ :=
  pixelPass data (interiorPixels width height) fun p =>
    if isArtifact data (4 * (width * height)) width (4 * p) then
      some (median9 data width p 0, median9 data width p 1, median9 data width p 2)
    else none

/-- One channel of the Laplacian sharpening in `enhanceImageStandard`. -/
def sharpenVal (data : ℕ → ℤ) (width p c : ℕ) : ℤ :=
  let x := p % width
  let y := p / width
  let centerValue : ℚ := data (4 * p + c)
  let sum : ℚ :=
    -(data (4 * ((y - 1) * width + x) + c) : ℚ)
      - (data (4 * (y * width + (x - 1)) + c) : ℚ)
      + 4 * centerValue
      - (data (4 * (y * width + (x + 1)) + c) : ℚ)
      - (data (4 * ((y + 1) * width + x) + c) : ℚ)
  max 0 (min 255 (jsRoundQ (centerValue + sum * 0.3)))

/-- `enhanceImageStandard`: Laplacian sharpening of every interior pixel at
strength 0.3, clamped to `[0, 255]`; borders and alpha keep the input value. -/
def enhanceImageStandard (data : ℕ → ℤ) (width height : ℕ) : ℕ → ℤ :=
  pixelPass data (interiorPixels width height) fun p =>
    some (sharpenVal data width p 0, sharpenVal data width p 1, sharpenVal data width p 2)

/-- An `ImageData`-like value: RGBA cell buffer plus dimensions. -/
structure ImageData where
  data : ℕ → ℤ
  width : ℕ
  height : ℕ

noncomputable def removeArtifactsID (img : ImageData) : ImageData :=
  ⟨removeArtifacts img.data img.width img.height, img.width, img.height⟩

def enhanceImageStandardID (img : ImageData) : ImageData :=
  ⟨enhanceImageStandard img.data img.width img.height, img.width, img.height⟩

/-- `applySuperResolution`: the whole ESRGAN path (model load, predict, tensor
conversions) is an external capability that either produces an image or fails;
the `catch` falls back to `enhanceImageStandard` on any failure. -/
def applySuperResolution (esrgan : ImageData → Except Unit ImageData) (img : ImageData) :
    ImageData :=
  match esrgan img with
  | Except.ok res => res
  | Except.error _ => enhanceImageStandardID img

/-- The post-processing pipeline of `enhanceImage`: artifact removal, then the
enhancement step with its internal fallback. -/
noncomputable def enhanceImageCore (esrgan : ImageData → Except Unit ImageData)
    (img : ImageData) : ImageData :=
  applySuperResolution esrgan (removeArtifactsID img)

/-! ### Color-space conversions (`src/utils/colorSpaceUtils.ts`)

The conversions use real powers and roots, so they are embedded over `ℝ`
(exact-real semantics of the JS arithmetic). -/

/-- JS `Math.round` on a real: round half toward positive infinity. -/
noncomputable def jsRoundR (x : ℝ) : ℤ := ⌊x + 1 / 2⌋

open Classical in
/-- The sRGB-to-linear gamma expansion (the local `applyGamma` of `rgbToXyz`). -/
noncomputable def applyGammaExpand (value : ℝ) : ℝ :=
  if value > 0.04045 then ((value + 0.055) / 1.055) ^ (2.4 : ℝ) else value / 12.92

/-- `rgbToXyz`. -/
noncomputable def rgbToXyz (r g b : ℝ) : ℝ × ℝ × ℝ :=
  let rNorm := applyGammaExpand (r / 255) * 100
  let gNorm := applyGammaExpand (g / 255) * 100
  let bNorm := applyGammaExpand (b / 255) * 100
  (rNorm * 0.4124 + gNorm * 0.3576 + bNorm * 0.1805,
   rNorm * 0.2126 + gNorm * 0.7152 + bNorm * 0.0722,
   rNorm * 0.0193 + gNorm * 0.1192 + bNorm * 0.9505)

structure LabColor where
  l : ℝ
  a : ℝ
  b : ℝ

instance : Inhabited LabColor := ⟨⟨0, 0, 0⟩⟩

open Classical in
/-- The cube-root compression (the local `applyTransform` of `xyzToLab`). -/
noncomputable def applyTransform (value : ℝ) : ℝ :=
  if value > 0.008856 then value ^ ((1 : ℝ) / 3) else 7.787 * value + 16 / 116

/-- `xyzToLab`. -/
noncomputable def xyzToLab (x y z : ℝ) : LabColor :=
  let xNorm := applyTransform (x / 95.047)
  let yNorm := applyTransform (y / 100.0)
  let zNorm := applyTransform (z / 108.883)
  ⟨116 * yNorm - 16, 500 * (xNorm - yNorm), 200 * (yNorm - zNorm)⟩

/-- `rgbToLab`. -/
noncomputable def rgbToLab (r g b : ℝ) : LabColor :=
  let xyz := rgbToXyz r g b
  xyzToLab xyz.1 xyz.2.1 xyz.2.2

open Classical in
/-- The inverse compression (the local `applyInverseTransform` of `labToXyz`);
JS `Math.pow(value, 3)` is the exact cube, also for negative arguments. -/
noncomputable def applyInverseTransform (value : ℝ) : ℝ :=
  let pow3 := value ^ (3 : ℕ)
  if pow3 > 0.008856 then pow3 else (value - 16 / 116) / 7.787

/-- `labToXyz`. -/
noncomputable def labToXyz (l a b : ℝ) : ℝ × ℝ × ℝ :=
  let y := (l + 16) / 116
  let x := a / 500 + y
  let z := y - b / 200
  (95.047 * applyInverseTransform x, 100.0 * applyInverseTransform y,
   108.883 * applyInverseTransform z)

open Classical in
/-- The linear-to-sRGB gamma compression (the local `applyGamma` of `xyzToRgb`). -/
noncomputable def applyGammaCompress (value : ℝ) : ℝ :=
  if value > 0.0031308 then 1.055 * value ^ ((1 : ℝ) / 2.4) - 0.055 else 12.92 * value

/-- `xyzToRgb`: inverse matrix, gamma compression, clamp to `[0,1]`, scale to
`[0,255]` and round. -/
noncomputable def xyzToRgb (x y z : ℝ) : ℤ × ℤ × ℤ :=
  let x := x / 100
  let y := y / 100
  let z := z / 100
  let r := applyGammaCompress (x * 3.2406 + y * -1.5372 + z * -0.4986)
  let g := applyGammaCompress (x * -0.9689 + y * 1.8758 + z * 0.0415)
  let b := applyGammaCompress (x * 0.0557 + y * -0.2040 + z * 1.0570)
  (jsRoundR (max 0 (min 1 r) * 255), jsRoundR (max 0 (min 1 g) * 255),
   jsRoundR (max 0 (min 1 b) * 255))

/-- `labToRgb`. -/
noncomputable def labToRgb (l a b : ℝ) : ℤ × ℤ × ℤ :=
  let xyz := labToXyz l a b
  xyzToRgb xyz.1 xyz.2.1 xyz.2.2

/-! ### Anchor-interpolation transfer (`src/utils/colorConverter.ts`) -/

structure ColorReference where
  source : LabColor
  target : LabColor

instance : Inhabited ColorReference := ⟨⟨default, default⟩⟩

/-- `YELLOW_TO_ROSE_REFS`. -/
noncomputable def YELLOW_TO_ROSE_REFS : List ColorReference :=
  [⟨⟨83, 10, 45⟩, ⟨80, 20, 25⟩⟩, ⟨⟨76, 7, 40⟩, ⟨70, 18, 22⟩⟩, ⟨⟨65, 6, 35⟩, ⟨60, 16, 18⟩⟩]

/-- `ROSE_TO_YELLOW_REFS`. -/
noncomputable def ROSE_TO_YELLOW_REFS : List ColorReference :=
  [⟨⟨80, 20, 25⟩, ⟨83, 10, 45⟩⟩, ⟨⟨70, 18, 22⟩, ⟨76, 7, 40⟩⟩, ⟨⟨60, 16, 18⟩, ⟨65, 6, 35⟩⟩]

/-- `labDistance` (Euclidean distance in Lab). -/
noncomputable def labDistance (lab1 lab2 : LabColor) : ℝ :=
  Real.sqrt ((lab1.l - lab2.l) ^ 2 + (lab1.a - lab2.a) ^ 2 + (lab1.b - lab2.b) ^ 2)

open Classical in
/-- `transformLabColor`: inverse-distance weighted interpolation against the
reference anchors, with reflection-preserving lightness blending.  (The
`references[0]` access on the `totalDistance = 0` branch is modelled with
`headD`; for the palettes in this file that branch is unreachable.) -/
noncomputable def transformLabColor (lab : LabColor) (references : List ColorReference)
    (reflectionStrength : ℝ) : LabColor :=
  let distances := references.map fun ref => labDistance lab ref.source
  let totalDistance := distances.foldl (· + ·) 0
  if totalDistance = 0 then (references.headD default).target
  else
    let weights := distances.map fun d => 1 / (d + 0.0001)
    let weightSum := weights.foldl (· + ·) 0
    let acc := (references.zip weights).foldl
      (fun (acc : ℝ × ℝ × ℝ) refw =>
        (acc.1 + refw.1.target.l * (refw.2 / weightSum),
         acc.2.1 + refw.1.target.a * (refw.2 / weightSum),
         acc.2.2 + refw.1.target.b * (refw.2 / weightSum)))
      (0, 0, 0)
    if reflectionStrength > 0 then
      let preservationFactor := reflectionStrength / 255
      ⟨lab.l * preservationFactor + acc.1 * (1 - preservationFactor), acc.2.1, acc.2.2⟩
    else ⟨acc.1, acc.2.1, acc.2.2⟩

/-- The pixel loop of `transformMetalColor`: recolor every masked pixel through
Lab, leave every unmasked pixel untouched. -/
noncomputable def transformMetalColorData (data : ℕ → ℤ) (width height : ℕ)
    (sourceColor targetColor : MetalColor) (metalMask reflectionMap : ℕ → ℕ) : ℕ → ℤ :=
  let colorRefs :=
    if sourceColor = MetalColor.yellow ∧ targetColor = MetalColor.rose then YELLOW_TO_ROSE_REFS
    else ROSE_TO_YELLOW_REFS
  pixelPass data (List.range (width * height)) fun pixelIndex =>
    if metalMask pixelIndex > 0 then
      let lab := rgbToLab (data (4 * pixelIndex)) (data (4 * pixelIndex + 1))
        (data (4 * pixelIndex + 2))
      let t := transformLabColor lab colorRefs (reflectionMap pixelIndex)
      some (labToRgb t.l t.a t.b)
    else none

/-! ### k-means clustering and cluster classification
(`src/utils/colorConverter.ts`, metal-detector part) -/

structure ClusterPoint where
  lab : LabColor
  index : ℕ

structure Cluster where
  center : LabColor
  points : List ClusterPoint

/-- `YELLOW_GOLD_LAB_REFS`. -/
noncomputable def YELLOW_GOLD_LAB_REFS : List LabColor :=
  [⟨83, 10, 45⟩, ⟨76, 7, 40⟩, ⟨70, 6, 35⟩]

/-- `ROSE_GOLD_LAB_REFS`. -/
noncomputable def ROSE_GOLD_LAB_REFS : List LabColor :=
  [⟨75, 20, 25⟩, ⟨68, 18, 20⟩, ⟨60, 16, 18⟩]

open Classical in
/-- Index of the nearest cluster center (JS fold with `minDistance = Infinity`
and strict `<` update, modelled with an `Option` accumulator: the first
distance always replaces `Infinity`). -/
noncomputable def nearestClusterIndex (lab : LabColor) (clusters : List Cluster) : ℕ :=
  ((clusters.enum.foldl
      (fun (st : Option (ℝ × ℕ)) ic =>
        let d := labDistance lab ic.2.center
        match st with
        | none => some (d, ic.1)
        | some (m, j) => if d < m then some (d, ic.1) else some (m, j))
      none).map Prod.snd).getD 0

/-- Assignment phase of one k-means iteration: each point goes to its nearest
cluster, in input order. -/
noncomputable def assignPoints (pts : List ClusterPoint) (clusters : List Cluster) :
    List Cluster :=
  clusters.enum.map fun ic =>
    ⟨ic.2.center, pts.filter fun pt => nearestClusterIndex pt.lab clusters = ic.1⟩

/-- Center-update phase of one k-means iteration: non-empty clusters move to
their centroid, empty clusters keep their center. -/
noncomputable def updateCenters (clusters : List Cluster) : List Cluster :=
  clusters.map fun cluster =>
    if cluster.points.length = 0 then cluster
    else
      let n : ℝ := cluster.points.length
      let sl := (cluster.points.map fun pt => pt.lab.l).foldl (· + ·) 0
      let sa := (cluster.points.map fun pt => pt.lab.a).foldl (· + ·) 0
      let sb := (cluster.points.map fun pt => pt.lab.b).foldl (· + ·) 0
      ⟨⟨sl / n, sa / n, sb / n⟩, cluster.points⟩

/-- One k-means iteration. -/
noncomputable def kMeansStep (pts : List ClusterPoint) (clusters : List Cluster) :
    List Cluster :=
  updateCenters (assignPoints pts clusters)

/-- Deterministic seeding: centers `labColors[i * floor(n / k)]` for `i < k`. -/
noncomputable def kMeansInitialCenters (labColors : List LabColor) (k : ℕ) : List LabColor :=
  let step := labColors.length / k
  (List.range k).map fun i => labColors.getD (i * step) default

/-- `kMeansLabClustering`: fixed-count iteration from the deterministic seed. -/
noncomputable def kMeansLabClustering (labColors : List LabColor) (k : ℕ)
    (maxIterations : ℕ := 10) : List Cluster :=
  let pts := labColors.enum.map fun il => ClusterPoint.mk il.2 il.1
  let clusters := (kMeansInitialCenters labColors k).map fun c => Cluster.mk c []
  (kMeansStep pts)^[maxIterations] clusters

/-- Runtime value of the JS classification `type` field
(`'yellow' | 'rose' | 'non-metal'`). -/
inductive ClusterClass where
  | yellow
  | rose
  | nonMetal
deriving DecidableEq, Repr

structure Classification where
  type : ClusterClass
  confidence : ℝ

/-- Minimum Lab distance to a reference list (JS fold with
`Math.min(Infinity, ·)`, modelled with an `Option` accumulator). -/
noncomputable def minDistToRefs (refs : List LabColor) (center : LabColor) : ℝ :=
  (refs.foldl
      (fun (st : Option ℝ) ref =>
        let dist := labDistance center ref
        match st with
        | none => some dist
        | some m => some (min m dist))
      none).getD 0

open Classical in
/-- `classifyCluster`. -/
noncomputable def classifyCluster (cluster : Cluster) : Classification :=
  let minYellowDist := minDistToRefs YELLOW_GOLD_LAB_REFS cluster.center
  let minRoseDist := minDistToRefs ROSE_GOLD_LAB_REFS cluster.center
  if minYellowDist > 30 ∧ minRoseDist > 30 then ⟨ClusterClass.nonMetal, 0.9⟩
  else
    ⟨if minYellowDist < minRoseDist then ClusterClass.yellow else ClusterClass.rose,
     1 - min minYellowDist minRoseDist / (minYellowDist + minRoseDist)⟩

structure DetectionResult where
  detectedColor : ClusterClass
  metalMask : ℕ → ℕ
  reflectionMap : ℕ → ℕ
  labValues : List LabColor

open Classical in
/-- The candidate metal clusters of `detectMetalType`: classified clusters that
are not non-metal with confidence above 0.5, sorted by member count descending
(JS `.sort` is stable, modelled by a stable insertion sort). -/
noncomputable def metalClustersOf (data : ℕ → ℤ) (width height : ℕ) :
    List (Cluster × Classification) :=
  let labColors := (List.range (width * height)).map fun p =>
    rgbToLab (data (4 * p)) (data (4 * p + 1)) (data (4 * p + 2))
  let clusters := kMeansLabClustering labColors 6
  let classified := clusters.map fun c => (c, classifyCluster c)
  (classified.filter fun cc =>
      ¬(cc.2.type = ClusterClass.nonMetal) ∧ cc.2.confidence > 0.5).insertionSort
    fun a b => b.1.points.length ≤ a.1.points.length

/-- The core of `detectMetalType` on a decoded pixel buffer: fails with the
`'No metal detected in the image'` error when no candidate cluster remains,
otherwise returns the dominant cluster's class, the merged metal mask and the
reflection map. -/
noncomputable def detectMetalTypeCore (data : ℕ → ℤ) (width height : ℕ) :
    Except String DetectionResult :=
  match metalClustersOf data width height with
  | [] => Except.error "No metal detected in the image"
  | dominantCluster :: rest =>
    let metalClusters := dominantCluster :: rest
    let metalMask : ℕ → ℕ := fun i =>
      if metalClusters.any fun cc => cc.1.points.any fun pt => pt.index = i then 255 else 0
    let reflectionMap := detectReflections data width height metalMask
    Except.ok
      ⟨dominantCluster.2.type, metalMask, reflectionMap,
       dominantCluster.1.points.map fun pt => pt.lab⟩

/-! ### General lemmas about the buffer machinery -/

theorem writePixel_apply (buf : ℕ → ℤ) (p : ℕ) (o : Option (ℤ × ℤ × ℤ)) (i : ℕ) :
    writePixel buf p o i =
      if i / 4 = p then cellValue o (buf i) (i % 4) else buf i := by
  cases o with
  | none => simp [writePixel, cellValue]
  | some t =>
    obtain ⟨r, gr, b⟩ := t
    simp only [writePixel, cellValue, updateBuf]
    split_ifs <;> first | rfl | omega

theorem pixelPass_apply (init : ℕ → ℤ) (l : List ℕ) (g : ℕ → Option (ℤ × ℤ × ℤ))
    (hnd : l.Nodup) (i : ℕ) :
    pixelPass init l g i =
      if i / 4 ∈ l then cellValue (g (i / 4)) (init i) (i % 4) else init i := by
  induction l generalizing init with
  | nil => simp [pixelPass]
  | cons p rest ih =>
    have step : pixelPass init (p :: rest) g i = pixelPass (writePixel init p (g p)) rest g i :=
      rfl
    rw [step, ih _ hnd.of_cons]
    by_cases hmem : i / 4 ∈ rest
    · have hne : i / 4 ≠ p := fun h => (List.nodup_cons.mp hnd).1 (h ▸ hmem)
      have hinit : writePixel init p (g p) i = init i := by
        rw [writePixel_apply, if_neg hne]
      simp [hmem, hinit]
    · rw [writePixel_apply]
      by_cases hp : i / 4 = p
      · rw [if_neg hmem, if_pos hp, if_pos (List.mem_cons.mpr (Or.inl hp)), hp]
      · rw [if_neg hmem, if_neg hp, if_neg (by simp [hp, hmem])]


theorem interiorPixels_nodup (width height : ℕ) : (interiorPixels width height).Nodup :=
  (List.nodup_range _).filter _

theorem cellValue_alpha (o : Option (ℤ × ℤ × ℤ)) (d : ℤ) : cellValue o d 3 = d := by
  cases o with
  | none => rfl
  | some t => obtain ⟨r, g, b⟩ := t; rfl

/-- Helper for claims about `detectReflections`: a positive reflection value
can only arise on the masked branch. -/
theorem detectReflections_pos (imageData : ℕ → ℤ) (width height : ℕ) (metalMask : ℕ → ℕ)
    (i : ℕ) (hpos : detectReflections imageData width height metalMask i > 0) :
    metalMask i > 0 := by
  by_cases hc : i < width * height ∧ metalMask i > 0
  · exact hc.2
  · simp only [detectReflections, if_neg hc] at hpos
    exact absurd hpos (by norm_num)

/-! ### Claim theorems -/

/-- **C3**: for every input buffer, metal mask, reflection map and direction,
every pixel with `metalMask[i] = 0` is bit-identical to the input in the
output of the transform (all four channels). -/
theorem transform_preserves_unmasked (data : ℕ → ℤ) (width height : ℕ)
    (sourceColor targetColor : MetalColor) (metalMask reflectionMap : ℕ → ℕ) (i : ℕ)
    (hm : metalMask (i / 4) = 0) :
    transformMetalColorData data width height sourceColor targetColor metalMask reflectionMap i
      = data i := by
  unfold transformMetalColorData
  rw [pixelPass_apply _ _ _ (List.nodup_range _)]
  simp [cellValue, hm]

theorem transform_preserves_unmasked_witness :
    (fun _ : ℕ => (0 : ℕ)) (0 / 4) = 0 ∧
      transformMetalColorData (fun _ => 7) 1 1 MetalColor.yellow MetalColor.rose
        (fun _ => 0) (fun _ => 0) 0 = 7 :=
  ⟨rfl,
   transform_preserves_unmasked (fun _ => 7) 1 1 MetalColor.yellow MetalColor.rose
     (fun _ => 0) (fun _ => 0) 0 rfl⟩

/-- **C10**: every pixel-processing stage (color transfer, median artifact
filter, sharpening fallback) leaves the alpha channel of every pixel
unchanged. -/
theorem alpha_channel_preserved (data : ℕ → ℤ) (width height : ℕ)
    (sourceColor targetColor : MetalColor) (metalMask reflectionMap : ℕ → ℕ) (i : ℕ)
    (hi : i % 4 = 3) :
    transformMetalColorData data width height sourceColor targetColor metalMask reflectionMap i
        = data i ∧
      removeArtifacts data width height i = data i ∧
      enhanceImageStandard data width height i = data i := by
  refine ⟨?_, ?_, ?_⟩
  · unfold transformMetalColorData
    rw [pixelPass_apply _ _ _ (List.nodup_range _)]
    simp [hi, cellValue_alpha]
  · unfold removeArtifacts
    rw [pixelPass_apply _ _ _ (interiorPixels_nodup _ _)]
    simp [hi, cellValue_alpha]
  · unfold enhanceImageStandard
    rw [pixelPass_apply _ _ _ (interiorPixels_nodup _ _)]
    simp [hi, cellValue_alpha]

theorem alpha_channel_preserved_witness :
    (3 : ℕ) % 4 = 3 ∧
      (transformMetalColorData (fun _ => 9) 1 1 MetalColor.yellow MetalColor.rose
          (fun _ => 255) (fun _ => 0) 3 = 9 ∧
        removeArtifacts (fun _ => 9) 1 1 3 = 9 ∧
        enhanceImageStandard (fun _ => 9) 1 1 3 = 9) :=
  ⟨rfl,
   alpha_channel_preserved (fun _ => 9) 1 1 MetalColor.yellow MetalColor.rose
     (fun _ => 255) (fun _ => 0) 3 rfl⟩

/-- **C6**: a positive reflection strength implies a set metal mask: for
`detectReflections` with any mask, and for every successful output of the
detection stage. -/
theorem reflection_implies_mask :
    (∀ (imageData : ℕ → ℤ) (width height : ℕ) (metalMask : ℕ → ℕ) (i : ℕ),
        detectReflections imageData width height metalMask i > 0 → metalMask i > 0) ∧
    (∀ (data : ℕ → ℤ) (width height : ℕ) (res : DetectionResult) (i : ℕ),
        detectMetalTypeCore data width height = Except.ok res →
        res.reflectionMap i > 0 → res.metalMask i > 0) := by
  refine ⟨detectReflections_pos, ?_⟩
  intro data width height res i hok hpos
  unfold detectMetalTypeCore at hok
  cases hm : metalClustersOf data width height with
  | nil => rw [hm] at hok; exact absurd hok (by simp)
  | cons dc rest =>
    rw [hm] at hok
    have hres := Except.ok.inj hok
    rw [← hres] at hpos ⊢
    exact detectReflections_pos _ _ _ _ _ hpos

theorem reflection_implies_mask_witness :
    detectReflections (fun _ => 255) 1 1 (fun _ => 255) 0 > 0 ∧ (fun _ : ℕ => (255 : ℕ)) 0 > 0 := by
  constructor
  · norm_num [detectReflections]
  · exact reflection_implies_mask.1 (fun _ => 255) 1 1 (fun _ => 255) 0
      (by norm_num [detectReflections])

/-- **C8**: if the external enhancement capability fails, post-processing still
returns the deterministic sharpening fallback applied to the
artifact-suppressed buffer, with the input dimensions, and no error. -/
theorem enhancement_failure_fallback (esrgan : ImageData → Except Unit ImageData)
    (img : ImageData) (e : Unit) (hfail : esrgan (removeArtifactsID img) = Except.error e) :
    enhanceImageCore esrgan img = enhanceImageStandardID (removeArtifactsID img) ∧
      (enhanceImageCore esrgan img).width = img.width ∧
      (enhanceImageCore esrgan img).height = img.height := by
  unfold enhanceImageCore applySuperResolution
  rw [hfail]
  exact ⟨rfl, rfl, rfl⟩

theorem enhancement_failure_fallback_witness :
    (fun _ : ImageData => (Except.error () : Except Unit ImageData))
        (removeArtifactsID ⟨fun _ => 0, 1, 1⟩) = Except.error () ∧
      enhanceImageCore (fun _ => Except.error ()) ⟨fun _ => 0, 1, 1⟩
        = enhanceImageStandardID (removeArtifactsID ⟨fun _ => 0, 1, 1⟩) :=
  ⟨rfl, (enhancement_failure_fallback (fun _ => Except.error ()) ⟨fun _ => 0, 1, 1⟩ () rfl).1⟩

open Classical in
/-- **C7**: artifact suppression replaces each RGB channel of an interior pixel
by the 3×3 input-buffer median exactly when the mean neighbor color distance
exceeds 40 (`isArtifact`); non-flagged interior pixels and border pixels keep
their input values. -/
theorem artifact_suppression (data : ℕ → ℤ) (width height p : ℕ) :
    (p ∈ interiorPixels width height →
      (isArtifact data (4 * (width * height)) width (4 * p) →
        removeArtifacts data width height (4 * p) = median9 data width p 0 ∧
          removeArtifacts data width height (4 * p + 1) = median9 data width p 1 ∧
          removeArtifacts data width height (4 * p + 2) = median9 data width p 2) ∧
      (¬isArtifact data (4 * (width * height)) width (4 * p) →
        ∀ c, c < 4 → removeArtifacts data width height (4 * p + c) = data (4 * p + c))) ∧
    (p ∉ interiorPixels width height →
      ∀ c, c < 4 → removeArtifacts data width height (4 * p + c) = data (4 * p + c)) := by
  have key : ∀ i, removeArtifacts data width height i =
      if i / 4 ∈ interiorPixels width height then
        cellValue
          (if isArtifact data (4 * (width * height)) width (4 * (i / 4)) then
            some (median9 data width (i / 4) 0, median9 data width (i / 4) 1,
              median9 data width (i / 4) 2)
          else none)
          (data i) (i % 4)
      else data i := by
    intro i
    unfold removeArtifacts
    rw [pixelPass_apply _ _ _ (interiorPixels_nodup _ _)]
  constructor
  · intro hmem
    constructor
    · intro hart
      refine ⟨?_, ?_, ?_⟩
      · rw [key (4 * p), show 4 * p / 4 = p by omega, show 4 * p % 4 = 0 by omega,
          if_pos hmem, if_pos hart]
        rfl
      · rw [key (4 * p + 1), show (4 * p + 1) / 4 = p by omega,
          show (4 * p + 1) % 4 = 1 by omega, if_pos hmem, if_pos hart]
        rfl
      · rw [key (4 * p + 2), show (4 * p + 2) / 4 = p by omega,
          show (4 * p + 2) % 4 = 2 by omega, if_pos hmem, if_pos hart]
        rfl
    · intro hart c hc
      rw [key (4 * p + c), show (4 * p + c) / 4 = p by omega, if_pos hmem, if_neg hart]
      rfl
  · intro hmem c hc
    rw [key (4 * p + c), show (4 * p + c) / 4 = p by omega, if_neg hmem]

theorem artifact_suppression_witness :
    4 ∈ interiorPixels 3 3 ∧
      isArtifact (fun i => if i / 4 = 4 then 0 else if i % 4 = 0 then 60 else 0)
        (4 * (3 * 3)) 3 (4 * 4) ∧
      removeArtifacts (fun i => if i / 4 = 4 then 0 else if i % 4 = 0 then 60 else 0) 3 3
          (4 * 4)
        = median9 (fun i => if i / 4 = 4 then 0 else if i % 4 = 0 then 60 else 0) 3 4 0 := by
  have hmem : 4 ∈ interiorPixels 3 3 := by decide
  have h60 : Real.sqrt 3600 = 60 := by
    rw [show (3600 : ℝ) = 60 ^ 2 by norm_num, Real.sqrt_sq (by norm_num)]
  have hart : isArtifact (fun i => if i / 4 = 4 then 0 else if i % 4 = 0 then 60 else 0)
      (4 * (3 * 3)) 3 (4 * 4) := by
    simp only [isArtifact, isArtifactVar]
    norm_num [List.filter]
    simp only [show Int.toNat 4 = 4 from rfl, show Int.toNat 28 = 28 from rfl,
      show Int.toNat 12 = 12 from rfl, show Int.toNat 20 = 20 from rfl]
    norm_num [h60]
  exact ⟨hmem, hart,
    (((artifact_suppression (fun i => if i / 4 = 4 then 0 else if i % 4 = 0 then 60 else 0)
        3 3 4).1 hmem).1 hart).1⟩

/-- **C1**: the direct-HSV per-pixel transform is *not* deterministic for fixed
arguments: on the pixel `(200,120,110)` with target `yellow`, two different
`Math.random()` draws (0 and 1) yield different RGB outputs, contradicting the
required determinism of both transfer strategies. -/
theorem transformGoldColor_jitter_dependent :
    transformGoldColor 200 120 110 MetalColor.yellow 0 = (166, 142, 83) ∧
      transformGoldColor 200 120 110 MetalColor.yellow 1 = (162, 145, 81) ∧
      transformGoldColor 200 120 110 MetalColor.yellow 0 ≠
        transformGoldColor 200 120 110 MetalColor.yellow 1 := by
  refine ⟨?_, ?_, ?_⟩ <;>
    norm_num [transformGoldColor, rgbToHsv, hsvToRgb, jsRoundQ, jsModQ, jsTruncQ, max_def,
      min_def, abs_eq_max_neg]

/-- Shared evaluation for the exact-anchor-match behaviour of
`transformLabColor`: on the middle yellow→rose anchor's source `(76,7,40)`
(distance 0 to that anchor, positive distance to the others), the output
a-channel is strictly between the matched target's `a = 18` and `18.001` —
a dominated weighted mixture, not the matched target itself. -/
theorem transformLabColor_exact_anchor_mix :
    18 < (transformLabColor ⟨76, 7, 40⟩ YELLOW_TO_ROSE_REFS 0).a ∧
      (transformLabColor ⟨76, 7, 40⟩ YELLOW_TO_ROSE_REFS 0).a < 18 + 1 / 1000 := by
  have h1 : labDistance ⟨76, 7, 40⟩ ⟨83, 10, 45⟩ = Real.sqrt 83 := by
    simp only [labDistance]; norm_num
  have h2 : labDistance ⟨76, 7, 40⟩ ⟨76, 7, 40⟩ = 0 := by
    simp only [labDistance]; norm_num
  have h3 : labDistance ⟨76, 7, 40⟩ ⟨65, 6, 35⟩ = Real.sqrt 147 := by
    simp only [labDistance]; norm_num
  have s83_pos : (0 : ℝ) < Real.sqrt 83 := Real.sqrt_pos.mpr (by norm_num)
  have s147_pos : (0 : ℝ) < Real.sqrt 147 := Real.sqrt_pos.mpr (by norm_num)
  have s83_lt : Real.sqrt 83 < Real.sqrt 147 := Real.sqrt_lt_sqrt (by norm_num) (by norm_num)
  have s83_gt9 : (9 : ℝ) < Real.sqrt 83 := by
    have := Real.sqrt_lt_sqrt (by norm_num : (0 : ℝ) ≤ 81) (by norm_num : (81 : ℝ) < 83)
    rwa [show (81 : ℝ) = 9 ^ 2 by norm_num, Real.sqrt_sq (by norm_num)] at this
  simp only [transformLabColor, YELLOW_TO_ROSE_REFS, List.map_cons, List.map_nil,
    List.foldl_cons, List.foldl_nil, List.zip_cons_cons, List.zip_nil_right, h1, h2, h3]
  rw [if_neg (by positivity), if_neg (by norm_num)]
  dsimp only
  set a := Real.sqrt 83 with ha
  set c := Real.sqrt 147 with hc
  have hA : (0 : ℝ) < a + 1e-4 := by positivity
  have hC : (0 : ℝ) < c + 1e-4 := by positivity
  have hW : (0 : ℝ) < 0 + 1 / (a + 1e-4) + 1 / (0 + 1e-4) + 1 / (c + 1e-4) := by positivity
  have hAC : 1 / (c + 1e-4) < 1 / (a + 1e-4) := one_div_lt_one_div_of_lt hA (by linarith)
  have hA9 : 1 / (a + 1e-4) < 1 / 9 := one_div_lt_one_div_of_lt (by norm_num) (by linarith)
  have key :
      (0 + 20 * (1 / (a + 1e-4) / (0 + 1 / (a + 1e-4) + 1 / (0 + 1e-4) + 1 / (c + 1e-4))) +
            18 * (1 / (0 + 1e-4) / (0 + 1 / (a + 1e-4) + 1 / (0 + 1e-4) + 1 / (c + 1e-4))) +
            16 * (1 / (c + 1e-4) / (0 + 1 / (a + 1e-4) + 1 / (0 + 1e-4) + 1 / (c + 1e-4))))
          - 18 =
        2 * (1 / (a + 1e-4) - 1 / (c + 1e-4)) /
          (0 + 1 / (a + 1e-4) + 1 / (0 + 1e-4) + 1 / (c + 1e-4)) := by
    field_simp
    ring
  constructor
  · have hpos : (0 : ℝ) < 2 * (1 / (a + 1e-4) - 1 / (c + 1e-4)) /
        (0 + 1 / (a + 1e-4) + 1 / (0 + 1e-4) + 1 / (c + 1e-4)) := div_pos (by linarith) hW
    linarith [key, hpos]
  · have hup : 2 * (1 / (a + 1e-4) - 1 / (c + 1e-4)) /
        (0 + 1 / (a + 1e-4) + 1 / (0 + 1e-4) + 1 / (c + 1e-4)) < 1 / 1000 := by
      rw [div_lt_iff₀ hW]
      have h1C : (0 : ℝ) < 1 / (c + 1e-4) := by positivity
      have h1A : (0 : ℝ) < 1 / (a + 1e-4) := by positivity
      nlinarith [hA9, h1C, h1A]
    linarith [key, hup]

/-- **C2** counterexample: the Lab pixel `(76,7,40)` is exactly the source of
the second yellow→rose anchor (distance 0), yet `transformLabColor` does not
return that anchor's target `(70,18,22)`. -/
theorem exact_anchor_match_not_target :
    transformLabColor ⟨76, 7, 40⟩ YELLOW_TO_ROSE_REFS 0 ≠ ⟨70, 18, 22⟩ := by
  intro h
  have hgt := transformLabColor_exact_anchor_mix.1
  rw [h] at hgt
  exact absurd hgt (by norm_num)

/-- **C2** (amended): a pixel exactly matching one anchor's source still gets
the ε-regularized weighted mixture — dominated by, but not equal to, the
matched anchor's target: on the middle yellow→rose anchor the output a-channel
lies strictly between 18 and 18.001. -/
theorem exact_anchor_match_weighted_mix :
    18 < (transformLabColor ⟨76, 7, 40⟩ YELLOW_TO_ROSE_REFS 0).a ∧
      (transformLabColor ⟨76, 7, 40⟩ YELLOW_TO_ROSE_REFS 0).a < 18 + 1 / 1000 :=
  transformLabColor_exact_anchor_mix

theorem rpow_nat_inv_le_of_pow_le {x r : ℝ} {n : ℕ} (hn : n ≠ 0) (hr : 0 ≤ r)
    (h : r ^ n ≤ x) : r ≤ x ^ ((n : ℝ))⁻¹ := by
  calc r = (r ^ n) ^ ((n : ℝ))⁻¹ := (Real.pow_rpow_inv_natCast hr hn).symm
    _ ≤ x ^ ((n : ℝ))⁻¹ := Real.rpow_le_rpow (by positivity) h (by positivity)

theorem rpow_nat_inv_le_of_le_pow {x r : ℝ} {n : ℕ} (hn : n ≠ 0) (hx : 0 ≤ x) (hr : 0 ≤ r)
    (h : x ≤ r ^ n) : x ^ ((n : ℝ))⁻¹ ≤ r := by
  calc x ^ ((n : ℝ))⁻¹ ≤ (r ^ n) ^ ((n : ℝ))⁻¹ := Real.rpow_le_rpow hx h (by positivity)
    _ = r := Real.pow_rpow_inv_natCast hr hn

theorem rpow_twelve_fifths (u : ℝ) (hu : 0 ≤ u) :
    u ^ (2.4 : ℝ) = (u ^ (12 : ℕ)) ^ ((5 : ℝ))⁻¹ := by
  rw [← Real.rpow_natCast u 12, ← Real.rpow_mul hu]
  norm_num

/-- Two-sided bound for `applyTransform` on the cube-root branch, certified by
cubes of rational endpoints. -/
theorem applyTransform_bounds (v lo hi r1 r2 : ℝ) (hlo : 0.008856 < lo) (h1 : lo ≤ v)
    (h2 : v ≤ hi) (hr1 : 0 ≤ r1) (hr2 : 0 ≤ r2) (hc1 : r1 ^ (3 : ℕ) ≤ lo)
    (hc2 : hi ≤ r2 ^ (3 : ℕ)) :
    r1 ≤ applyTransform v ∧ applyTransform v ≤ r2 := by
  rw [applyTransform, if_pos (by norm_num; linarith)]
  rw [show (1 : ℝ) / 3 = ((3 : ℝ))⁻¹ by norm_num]
  exact ⟨rpow_nat_inv_le_of_pow_le (by norm_num) hr1 (le_trans hc1 h1),
    rpow_nat_inv_le_of_le_pow (by norm_num) (by linarith) hr2 (le_trans h2 hc2)⟩

theorem gray_lab_bounds_aux (T : ℝ) (ht1 : 0.2158 ≤ T) (ht2 : T ≤ 0.216) :
    53.5 ≤ (xyzToLab (T * 100 * 0.4124 + T * 100 * 0.3576 + T * 100 * 0.1805)
        (T * 100 * 0.2126 + T * 100 * 0.7152 + T * 100 * 0.0722)
        (T * 100 * 0.0193 + T * 100 * 0.1192 + T * 100 * 0.9505)).l ∧
      (xyzToLab (T * 100 * 0.4124 + T * 100 * 0.3576 + T * 100 * 0.1805)
        (T * 100 * 0.2126 + T * 100 * 0.7152 + T * 100 * 0.0722)
        (T * 100 * 0.0193 + T * 100 * 0.1192 + T * 100 * 0.9505)).l ≤ 53.7 ∧
      -(1 / 2) ≤ (xyzToLab (T * 100 * 0.4124 + T * 100 * 0.3576 + T * 100 * 0.1805)
        (T * 100 * 0.2126 + T * 100 * 0.7152 + T * 100 * 0.0722)
        (T * 100 * 0.0193 + T * 100 * 0.1192 + T * 100 * 0.9505)).a ∧
      (xyzToLab (T * 100 * 0.4124 + T * 100 * 0.3576 + T * 100 * 0.1805)
        (T * 100 * 0.2126 + T * 100 * 0.7152 + T * 100 * 0.0722)
        (T * 100 * 0.0193 + T * 100 * 0.1192 + T * 100 * 0.9505)).a ≤ 1 / 2 ∧
      -(1 / 2) ≤ (xyzToLab (T * 100 * 0.4124 + T * 100 * 0.3576 + T * 100 * 0.1805)
        (T * 100 * 0.2126 + T * 100 * 0.7152 + T * 100 * 0.0722)
        (T * 100 * 0.0193 + T * 100 * 0.1192 + T * 100 * 0.9505)).b ∧
      (xyzToLab (T * 100 * 0.4124 + T * 100 * 0.3576 + T * 100 * 0.1805)
        (T * 100 * 0.2126 + T * 100 * 0.7152 + T * 100 * 0.0722)
        (T * 100 * 0.0193 + T * 100 * 0.1192 + T * 100 * 0.9505)).b ≤ 1 / 2 := by
  obtain ⟨hx1, hx2⟩ := applyTransform_bounds
    ((T * 100 * 0.4124 + T * 100 * 0.3576 + T * 100 * 0.1805) / 95.047)
    0.2158 0.21601 0.5995 0.6004 (by norm_num)
    (by rw [le_div_iff₀ (by norm_num : (0:ℝ) < 95.047)]; linarith)
    (by rw [div_le_iff₀ (by norm_num : (0:ℝ) < 95.047)]; linarith) (by norm_num)
    (by norm_num) (by norm_num) (by norm_num)
  obtain ⟨hy1, hy2⟩ := applyTransform_bounds
    ((T * 100 * 0.2126 + T * 100 * 0.7152 + T * 100 * 0.0722) / 100.0)
    0.2158 0.216 0.5995 0.6003 (by norm_num)
    (by rw [le_div_iff₀ (by norm_num : (0:ℝ) < 100.0)]; linarith)
    (by rw [div_le_iff₀ (by norm_num : (0:ℝ) < 100.0)]; linarith) (by norm_num)
    (by norm_num) (by norm_num) (by norm_num)
  obtain ⟨hz1, hz2⟩ := applyTransform_bounds
    ((T * 100 * 0.0193 + T * 100 * 0.1192 + T * 100 * 0.9505) / 108.883)
    0.2158 0.21604 0.5995 0.6004 (by norm_num)
    (by rw [le_div_iff₀ (by norm_num : (0:ℝ) < 108.883)]; linarith)
    (by rw [div_le_iff₀ (by norm_num : (0:ℝ) < 108.883)]; linarith) (by norm_num)
    (by norm_num) (by norm_num) (by norm_num)
  simp only [xyzToLab]
  refine ⟨by linarith, by linarith, by linarith, by linarith, by linarith, by linarith⟩

/-- Interval enclosure of the Lab value of the mid-gray pixel `(128,128,128)`. -/
theorem gray_lab_bounds :
    53.5 ≤ (rgbToLab 128 128 128).l ∧ (rgbToLab 128 128 128).l ≤ 53.7 ∧
      -(1 / 2) ≤ (rgbToLab 128 128 128).a ∧ (rgbToLab 128 128 128).a ≤ 1 / 2 ∧
      -(1 / 2) ≤ (rgbToLab 128 128 128).b ∧ (rgbToLab 128 128 128).b ≤ 1 / 2 := by
  have hgam : applyGammaExpand (128 / 255) = ((5681 / 10761 : ℝ)) ^ (2.4 : ℝ) := by
    rw [applyGammaExpand, if_pos (by norm_num)]
    norm_num
  have hunf : rgbToLab 128 128 128 =
      xyzToLab
        (((5681 / 10761 : ℝ)) ^ (2.4 : ℝ) * 100 * 0.4124 +
          ((5681 / 10761 : ℝ)) ^ (2.4 : ℝ) * 100 * 0.3576 +
          ((5681 / 10761 : ℝ)) ^ (2.4 : ℝ) * 100 * 0.1805)
        (((5681 / 10761 : ℝ)) ^ (2.4 : ℝ) * 100 * 0.2126 +
          ((5681 / 10761 : ℝ)) ^ (2.4 : ℝ) * 100 * 0.7152 +
          ((5681 / 10761 : ℝ)) ^ (2.4 : ℝ) * 100 * 0.0722)
        (((5681 / 10761 : ℝ)) ^ (2.4 : ℝ) * 100 * 0.0193 +
          ((5681 / 10761 : ℝ)) ^ (2.4 : ℝ) * 100 * 0.1192 +
          ((5681 / 10761 : ℝ)) ^ (2.4 : ℝ) * 100 * 0.9505) := by
    simp only [rgbToLab, rgbToXyz, hgam]
  rw [hunf]
  have ht1 : (0.2158 : ℝ) ≤ ((5681 / 10761 : ℝ)) ^ (2.4 : ℝ) := by
    rw [rpow_twelve_fifths _ (by norm_num)]
    exact rpow_nat_inv_le_of_pow_le (by norm_num) (by norm_num) (by norm_num)
  have ht2 : ((5681 / 10761 : ℝ)) ^ (2.4 : ℝ) ≤ 0.216 := by
    rw [rpow_twelve_fifths _ (by norm_num)]
    exact rpow_nat_inv_le_of_le_pow (by norm_num) (by positivity) (by norm_num) (by norm_num)
  exact gray_lab_bounds_aux _ ht1 ht2

/-- Any cluster centered at the mid-gray Lab value is classified as rose with
confidence above the 0.5 cutoff. -/
theorem classify_gray (pts : List ClusterPoint) :
    (classifyCluster ⟨rgbToLab 128 128 128, pts⟩).type = ClusterClass.rose ∧
      1 / 2 < (classifyCluster ⟨rgbToLab 128 128 128, pts⟩).confidence := by
  obtain ⟨hl1, hl2, ha1, ha2, hb1, hb2⟩ := gray_lab_bounds
  set g := rgbToLab 128 128 128 with hgdef
  have dY1 : (30 : ℝ) < labDistance g ⟨83, 10, 45⟩ :=
    (Real.lt_sqrt (by norm_num)).mpr (by dsimp only; nlinarith)
  have dY2 : (30 : ℝ) < labDistance g ⟨76, 7, 40⟩ :=
    (Real.lt_sqrt (by norm_num)).mpr (by dsimp only; nlinarith)
  have dY3 : (30 : ℝ) < labDistance g ⟨70, 6, 35⟩ :=
    (Real.lt_sqrt (by norm_num)).mpr (by dsimp only; nlinarith)
  have dR3 : labDistance g ⟨60, 16, 18⟩ < 30 :=
    (Real.sqrt_lt' (by norm_num)).mpr (by dsimp only; nlinarith)
  have dR1nn : (0 : ℝ) ≤ labDistance g ⟨75, 20, 25⟩ := Real.sqrt_nonneg _
  have dR2nn : (0 : ℝ) ≤ labDistance g ⟨68, 18, 20⟩ := Real.sqrt_nonneg _
  have dR3nn : (0 : ℝ) ≤ labDistance g ⟨60, 16, 18⟩ := Real.sqrt_nonneg _
  have hminY : minDistToRefs YELLOW_GOLD_LAB_REFS g =
      min (min (labDistance g ⟨83, 10, 45⟩) (labDistance g ⟨76, 7, 40⟩))
        (labDistance g ⟨70, 6, 35⟩) := by
    simp [minDistToRefs, YELLOW_GOLD_LAB_REFS]
  have hminR : minDistToRefs ROSE_GOLD_LAB_REFS g =
      min (min (labDistance g ⟨75, 20, 25⟩) (labDistance g ⟨68, 18, 20⟩))
        (labDistance g ⟨60, 16, 18⟩) := by
    simp [minDistToRefs, ROSE_GOLD_LAB_REFS]
  have hYgt : 30 < minDistToRefs YELLOW_GOLD_LAB_REFS g := by
    rw [hminY]
    exact lt_min (lt_min dY1 dY2) dY3
  have hRlt : minDistToRefs ROSE_GOLD_LAB_REFS g < 30 := by
    rw [hminR]
    exact lt_of_le_of_lt (min_le_right _ _) dR3
  have hRnn : 0 ≤ minDistToRefs ROSE_GOLD_LAB_REFS g := by
    rw [hminR]
    exact le_min (le_min dR1nn dR2nn) dR3nn
  have hRY : minDistToRefs ROSE_GOLD_LAB_REFS g < minDistToRefs YELLOW_GOLD_LAB_REFS g :=
    lt_trans hRlt hYgt
  simp only [classifyCluster]
  rw [if_neg (by intro hcon; linarith [hcon.2])]
  dsimp only
  constructor
  · rw [if_neg (not_lt.mpr (le_of_lt hRY))]
  · rw [min_eq_right (le_of_lt hRY)]
    rw [show ((1 : ℝ) / 2) = 1 - 1 / 2 by norm_num]
    have hsum : 0 < minDistToRefs YELLOW_GOLD_LAB_REFS g + minDistToRefs ROSE_GOLD_LAB_REFS g := by
      linarith
    have : minDistToRefs ROSE_GOLD_LAB_REFS g /
        (minDistToRefs YELLOW_GOLD_LAB_REFS g + minDistToRefs ROSE_GOLD_LAB_REFS g) < 1 / 2 := by
      rw [div_lt_iff₀ hsum]
      linarith
    linarith

theorem labDistance_self (g : LabColor) : labDistance g g = 0 := by
  simp [labDistance]

/-- With six clusters all centered at the query color, the JS nearest-cluster
fold returns index 0 (ties keep the earlier index, strict `<`). -/
theorem nearest_six (g : LabColor) (C0 C1 C2 C3 C4 C5 : Cluster)
    (h0 : C0.center = g) (h1 : C1.center = g) (h2 : C2.center = g) (h3 : C3.center = g)
    (h4 : C4.center = g) (h5 : C5.center = g) :
    nearestClusterIndex g [C0, C1, C2, C3, C4, C5] = 0 := by
  simp [nearestClusterIndex, List.enum, List.enumFrom, h0, h1, h2, h3, h4, h5,
    labDistance_self, lt_self_iff_false]


/-- One k-means step on six identical gray points with six gray-centered
clusters: everything collapses into cluster 0, centers stay gray. -/
theorem kMeansStep_gray (g : LabColor) (P0 P1 P2 P3 P4 P5 : List ClusterPoint) :
    kMeansStep [⟨g, 0⟩, ⟨g, 1⟩, ⟨g, 2⟩, ⟨g, 3⟩, ⟨g, 4⟩, ⟨g, 5⟩]
        [⟨g, P0⟩, ⟨g, P1⟩, ⟨g, P2⟩, ⟨g, P3⟩, ⟨g, P4⟩, ⟨g, P5⟩] =
      [⟨g, [⟨g, 0⟩, ⟨g, 1⟩, ⟨g, 2⟩, ⟨g, 3⟩, ⟨g, 4⟩, ⟨g, 5⟩]⟩,
       ⟨g, []⟩, ⟨g, []⟩, ⟨g, []⟩, ⟨g, []⟩, ⟨g, []⟩] := by
  have hnear : nearestClusterIndex g [⟨g, P0⟩, ⟨g, P1⟩, ⟨g, P2⟩, ⟨g, P3⟩, ⟨g, P4⟩, ⟨g, P5⟩] = 0 :=
    nearest_six g _ _ _ _ _ _ rfl rfl rfl rfl rfl rfl
  obtain ⟨gl, ga, gb⟩ := g
  simp only [kMeansStep, assignPoints, updateCenters, List.enum, List.enumFrom,
    List.map_cons, List.map_nil, List.filter, hnear]
  norm_num
  exact ⟨by ring, by ring, by ring⟩



/-- k-means on six identical colors: all points collapse into cluster 0 and
the centers never move. -/
theorem kMeans_gray (g : LabColor) :
    kMeansLabClustering [g, g, g, g, g, g] 6 =
      [⟨g, [⟨g, 0⟩, ⟨g, 1⟩, ⟨g, 2⟩, ⟨g, 3⟩, ⟨g, 4⟩, ⟨g, 5⟩]⟩,
       ⟨g, []⟩, ⟨g, []⟩, ⟨g, []⟩, ⟨g, []⟩, ⟨g, []⟩] := by
  have hpts : ([g, g, g, g, g, g] : List LabColor).enum.map
      (fun il => ClusterPoint.mk il.2 il.1) =
      [⟨g, 0⟩, ⟨g, 1⟩, ⟨g, 2⟩, ⟨g, 3⟩, ⟨g, 4⟩, ⟨g, 5⟩] := rfl
  have hinit : (kMeansInitialCenters [g, g, g, g, g, g] 6).map (fun c => Cluster.mk c []) =
      [⟨g, []⟩, ⟨g, []⟩, ⟨g, []⟩, ⟨g, []⟩, ⟨g, []⟩, ⟨g, []⟩] := by
    norm_num [kMeansInitialCenters, show List.range 6 = [0, 1, 2, 3, 4, 5] from rfl]
  simp only [kMeansLabClustering, hpts, hinit]
  rw [show (10 : ℕ) = 9 + 1 from rfl, Function.iterate_succ_apply, kMeansStep_gray]
  exact Function.iterate_fixed (kMeansStep_gray g _ _ _ _ _ _) 9

/-- The candidate-cluster list of the uniform mid-gray 3×2 image: the dominant
candidate is the gray-centered cluster holding all six pixels, classified
(rose) with confidence above the cutoff. -/
theorem gray_metalClusters :
    ∃ pts rest, metalClustersOf (fun _ => 128) 3 2 =
      (⟨⟨rgbToLab 128 128 128, pts⟩, classifyCluster ⟨rgbToLab 128 128 128, pts⟩⟩ :
        Cluster × Classification) :: rest := by
  have htype : ∀ pts, (classifyCluster ⟨rgbToLab 128 128 128, pts⟩).type = ClusterClass.rose :=
    fun pts => (classify_gray pts).1
  have hconf : ∀ pts : List ClusterPoint,
      ((1 : ℝ) / 2) < (classifyCluster ⟨rgbToLab 128 128 128, pts⟩).confidence :=
    fun pts => (classify_gray pts).2
  simp only [metalClustersOf, show (3 * 2 : ℕ) = 6 from rfl,
    show List.range 6 = [0, 1, 2, 3, 4, 5] from rfl, List.map_cons, List.map_nil]
  norm_num
  rw [kMeans_gray]
  simp only [List.map_cons, List.map_nil, List.filter_cons, List.filter_nil, htype, hconf]
  norm_num

/-- Shape of `detectMetalTypeCore` when a dominant candidate exists. -/
theorem detect_shape (data : ℕ → ℤ) (width height : ℕ) (dc : Cluster × Classification)
    (rest : List (Cluster × Classification))
    (h : metalClustersOf data width height = dc :: rest) :
    ∃ res, detectMetalTypeCore data width height = Except.ok res ∧
      res.detectedColor = dc.2.type := by
  unfold detectMetalTypeCore
  rw [h]
  exact ⟨_, rfl, rfl⟩

/-- **C5** counterexample: on a uniform mid-gray 3×2 image, `detectMetalType`
does *not* fail with `NoMetalDetected`: it succeeds and reports `rose`. -/
theorem gray_image_detected_as_rose :
    ∃ res, detectMetalTypeCore (fun _ => 128) 3 2 = Except.ok res ∧
      res.detectedColor = ClusterClass.rose := by
  obtain ⟨pts, rest, hmc⟩ := gray_metalClusters
  obtain ⟨res, hok, hcol⟩ := detect_shape _ _ _ _ _ hmc
  exact ⟨res, hok, by rw [hcol]; exact (classify_gray pts).1⟩

theorem insertionSort_eq_nil_iff {α : Type} (r : α → α → Prop) [DecidableRel r] (l : List α) :
    List.insertionSort r l = [] ↔ l = [] := by
  constructor
  · intro h
    have hp := List.perm_insertionSort r l
    rw [h] at hp
    exact hp.symm.eq_nil
  · intro h
    rw [h]
    rfl

set_option maxHeartbeats 1000000 in
open Classical in
/-- **C5** (amended): on a nonempty image, detection fails with the
`NoMetalDetected` error exactly when no cluster is classified as a metal type
with confidence above the 0.5 cutoff, and a failure never also yields a result
(no silent default finish).  A uniform mid-gray image, however, does *not*
fail this way: it is detected as rose (see the counterexample theorem). -/
theorem noMetalDetected_iff (data : ℕ → ℤ) (width height : ℕ) (hn : 0 < width * height) :
    (detectMetalTypeCore data width height = Except.error "No metal detected in the image" ↔
      ∀ c ∈ kMeansLabClustering
          ((List.range (width * height)).map fun p =>
            rgbToLab (data (4 * p)) (data (4 * p + 1)) (data (4 * p + 2))) 6,
        (classifyCluster c).type = ClusterClass.nonMetal ∨
          ¬(classifyCluster c).confidence > 0.5) ∧
    ∀ res,
      detectMetalTypeCore data width height = Except.error "No metal detected in the image" →
        detectMetalTypeCore data width height ≠ Except.ok res := by
  have herr : detectMetalTypeCore data width height =
        Except.error "No metal detected in the image" ↔
      metalClustersOf data width height = [] := by
    unfold detectMetalTypeCore
    cases hm : metalClustersOf data width height with
    | nil => simp
    | cons dc rest => simp
  have hmc : metalClustersOf data width height =
      List.insertionSort (fun a b => b.1.points.length ≤ a.1.points.length)
        (List.filter
          (fun cc => decide (¬cc.2.type = ClusterClass.nonMetal ∧ cc.2.confidence > 0.5))
          (List.map (fun c => (c, classifyCluster c))
            (kMeansLabClustering
              ((List.range (width * height)).map fun p =>
                rgbToLab (data (4 * p)) (data (4 * p + 1)) (data (4 * p + 2))) 6))) := by
    simp only [metalClustersOf]
  constructor
  · rw [herr, hmc, insertionSort_eq_nil_iff, List.filter_eq_nil_iff]
    constructor
    · intro hall c hc
      have h1 := hall (c, classifyCluster c) (List.mem_map_of_mem _ hc)
      simp only [decide_eq_true_eq] at h1
      exact or_iff_not_imp_left.mpr fun hA hB => h1 ⟨hA, hB⟩
    · intro hall cc hcc
      obtain ⟨c, hc, rfl⟩ := List.mem_map.mp hcc
      have h1 := hall c hc
      simp only [decide_eq_true_eq]
      exact fun hand => h1.elim (fun hA => hand.1 hA) fun hnB => hnB hand.2
  · intro res herr2 hok
    rw [herr2] at hok
    exact absurd hok (by simp)

/-- The black pixel converts exactly to Lab `(0,0,0)` (all linear branches). -/
theorem rgbToLab_black : rgbToLab 0 0 0 = ⟨0, 0, 0⟩ := by
  have hg : applyGammaExpand (0 / 255) = 0 := by
    rw [applyGammaExpand, if_neg (by norm_num)]
    norm_num
  have ht : applyTransform 0 = 16 / 116 := by
    rw [applyTransform, if_neg (by norm_num)]
    norm_num
  simp only [rgbToLab, rgbToXyz, xyzToLab, hg]
  norm_num [ht]

/-- A black-centered cluster is classified as non-metal. -/
theorem classify_black (pts : List ClusterPoint) :
    (classifyCluster ⟨rgbToLab 0 0 0, pts⟩).type = ClusterClass.nonMetal := by
  rw [rgbToLab_black]
  have dY1 : (30 : ℝ) < labDistance ⟨0, 0, 0⟩ ⟨83, 10, 45⟩ :=
    (Real.lt_sqrt (by norm_num)).mpr (by dsimp only; nlinarith)
  have dY2 : (30 : ℝ) < labDistance ⟨0, 0, 0⟩ ⟨76, 7, 40⟩ :=
    (Real.lt_sqrt (by norm_num)).mpr (by dsimp only; nlinarith)
  have dY3 : (30 : ℝ) < labDistance ⟨0, 0, 0⟩ ⟨70, 6, 35⟩ :=
    (Real.lt_sqrt (by norm_num)).mpr (by dsimp only; nlinarith)
  have dR1 : (30 : ℝ) < labDistance ⟨0, 0, 0⟩ ⟨75, 20, 25⟩ :=
    (Real.lt_sqrt (by norm_num)).mpr (by dsimp only; nlinarith)
  have dR2 : (30 : ℝ) < labDistance ⟨0, 0, 0⟩ ⟨68, 18, 20⟩ :=
    (Real.lt_sqrt (by norm_num)).mpr (by dsimp only; nlinarith)
  have dR3 : (30 : ℝ) < labDistance ⟨0, 0, 0⟩ ⟨60, 16, 18⟩ :=
    (Real.lt_sqrt (by norm_num)).mpr (by dsimp only; nlinarith)
  have hminY : minDistToRefs YELLOW_GOLD_LAB_REFS ⟨0, 0, 0⟩ =
      min (min (labDistance ⟨0, 0, 0⟩ ⟨83, 10, 45⟩) (labDistance ⟨0, 0, 0⟩ ⟨76, 7, 40⟩))
        (labDistance ⟨0, 0, 0⟩ ⟨70, 6, 35⟩) := by
    simp [minDistToRefs, YELLOW_GOLD_LAB_REFS]
  have hminR : minDistToRefs ROSE_GOLD_LAB_REFS ⟨0, 0, 0⟩ =
      min (min (labDistance ⟨0, 0, 0⟩ ⟨75, 20, 25⟩) (labDistance ⟨0, 0, 0⟩ ⟨68, 18, 20⟩))
        (labDistance ⟨0, 0, 0⟩ ⟨60, 16, 18⟩) := by
    simp [minDistToRefs, ROSE_GOLD_LAB_REFS]
  simp only [classifyCluster]
  rw [if_pos]
  constructor
  · rw [hminY]
    exact lt_min (lt_min dY1 dY2) dY3
  · rw [hminR]
    exact lt_min (lt_min dR1 dR2) dR3

theorem noMetalDetected_iff_witness :
    0 < 3 * 2 ∧
      detectMetalTypeCore (fun _ => 0) 3 2 = Except.error "No metal detected in the image" := by
  refine ⟨by norm_num, (noMetalDetected_iff (fun _ => 0) 3 2 (by norm_num)).1.mpr ?_⟩
  have hlabs : ((List.range (3 * 2)).map fun p =>
      rgbToLab (((fun _ : ℕ => (0 : ℤ)) (4 * p) : ℤ)) (((fun _ : ℕ => (0 : ℤ)) (4 * p + 1) : ℤ))
        (((fun _ : ℕ => (0 : ℤ)) (4 * p + 2) : ℤ))) =
      [rgbToLab 0 0 0, rgbToLab 0 0 0, rgbToLab 0 0 0, rgbToLab 0 0 0, rgbToLab 0 0 0,
        rgbToLab 0 0 0] := by
    norm_num [show (3 * 2 : ℕ) = 6 from rfl, show List.range 6 = [0, 1, 2, 3, 4, 5] from rfl]
  rw [hlabs, kMeans_gray]
  intro c hc
  simp only [List.mem_cons, List.not_mem_nil, or_false] at hc
  rcases hc with rfl | rfl | rfl | rfl | rfl | rfl <;> exact Or.inl (classify_black _)

/-- **C9**: classification is deterministic: two runs of `detectMetalTypeCore`
on the same buffer yield the same result (the embedding is a pure function of
the buffer: the k-means seeding takes sample `i * floor(n / k)`, iterates a
fixed 10 rounds, and no stage consults a randomness source), and the seeding
is exactly the evenly-spaced-sample rule. -/
theorem detectFinish_deterministic :
    (∀ (data : ℕ → ℤ) (width height : ℕ) (r1 r2 : Except String DetectionResult),
        r1 = detectMetalTypeCore data width height →
        r2 = detectMetalTypeCore data width height → r1 = r2) ∧
    (∀ (labColors : List LabColor) (i : ℕ), i < 6 →
        (kMeansInitialCenters labColors 6).getD i default =
          labColors.getD (i * (labColors.length / 6)) default) ∧
    ∀ (labColors : List LabColor) (k : ℕ),
      kMeansLabClustering labColors k =
        (kMeansStep (labColors.enum.map fun il => ClusterPoint.mk il.2 il.1))^[10]
          ((kMeansInitialCenters labColors k).map fun c => Cluster.mk c []) := by
  refine ⟨fun _ _ _ _ _ h1 h2 => h1.trans h2.symm, ?_, fun _ _ => rfl⟩
  intro labColors i hi
  simp only [kMeansInitialCenters]
  rw [List.getD_eq_getElem?_getD, List.getElem?_map, List.getElem?_range hi]
  simp [List.getD_eq_getElem?_getD]

theorem detectFinish_deterministic_witness :
    detectMetalTypeCore (fun _ => 0) 1 1 = detectMetalTypeCore (fun _ => 0) 1 1 ∧
      (0 : ℕ) < 6 ∧
      (kMeansInitialCenters [] 6).getD 0 default =
        List.getD ([] : List LabColor) (0 * (List.length ([] : List LabColor) / 6)) default :=
  ⟨detectFinish_deterministic.1 (fun _ => 0) 1 1 _ _ rfl rfl, by norm_num,
   detectFinish_deterministic.2.1 [] 0 (by norm_num)⟩


/-! ### The Lab round trip (`rgbToLab` / `labToRgb`) -/

/-- The compression/decompression pair of `xyzToLab`/`labToXyz` cancels up to
`1e-6` on `[0, 1.01]` (exact except on the tiny branch-mismatch sliver below
the 0.008856 threshold). -/
theorem applyInverseTransform_eq (value : ℝ) :
    applyInverseTransform value =
      if value ^ (3 : ℕ) > 0.008856 then value ^ (3 : ℕ) else (value - 16 / 116) / 7.787 := rfl

theorem applyInverseTransform_applyTransform (w : ℝ) (h0 : 0 ≤ w) (h1 : w ≤ 1.01) :
    |applyInverseTransform (applyTransform w) - w| ≤ 1e-6 := by
  rw [applyTransform]
  by_cases hbr : w > 0.008856
  · rw [if_pos hbr]
    have hcube : (w ^ ((1 : ℝ) / 3)) ^ (3 : ℕ) = w := by
      rw [show (1 : ℝ) / 3 = ((3 : ℝ))⁻¹ by norm_num]
      exact Real.rpow_inv_natCast_pow h0 (by norm_num)
    rw [applyInverseTransform_eq, hcube, if_pos hbr]
    norm_num
  · rw [if_neg hbr]
    push_neg at hbr
    rw [applyInverseTransform_eq]
    set t := 7.787 * w + 16 / 116 with htdef
    have ht0 : 0 ≤ t := by rw [htdef]; linarith
    by_cases hsl : t ^ (3 : ℕ) > 0.008856
    · rw [if_pos hsl]
      -- slip zone: w is just below the threshold and t^3 just above it
      have htup : t ≤ 0.2068966 := by rw [htdef]; linarith
      have hcup : t ^ (3 : ℕ) ≤ 0.2068966 ^ (3 : ℕ) := pow_le_pow_left₀ ht0 htup 3
      have htlow : (0.206892 : ℝ) < t := by
        by_contra hcon
        push_neg at hcon
        have : t ^ (3 : ℕ) ≤ (0.206892 : ℝ) ^ (3 : ℕ) := pow_le_pow_left₀ ht0 hcon 3
        nlinarith
      have hwlow : (0.0088558 : ℝ) < w := by rw [htdef] at htlow; linarith
      rw [abs_le]
      constructor <;> nlinarith
    · rw [if_neg hsl]
      have : (t - 16 / 116) / 7.787 = w := by rw [htdef]; ring
      rw [this]
      norm_num

theorem rpow_five_twelfths (u : ℝ) (hu : 0 ≤ u) :
    u ^ ((1 : ℝ) / 2.4) = (u ^ (5 : ℕ)) ^ ((12 : ℝ))⁻¹ := by
  rw [← Real.rpow_natCast u 5, ← Real.rpow_mul hu]
  norm_num

/-- The sRGB gamma expansion maps `[0,1]` into `[0,1]`. -/
theorem applyGammaExpand_bounds (v : ℝ) (h0 : 0 ≤ v) (h1 : v ≤ 1) :
    0 ≤ applyGammaExpand v ∧ applyGammaExpand v ≤ 1 := by
  rw [applyGammaExpand]
  by_cases hbr : v > 0.04045
  · rw [if_pos hbr]
    refine ⟨Real.rpow_nonneg (by positivity) _, ?_⟩
    exact Real.rpow_le_one (by positivity) (by rw [div_le_one (by norm_num)]; linarith)
      (by norm_num)
  · rw [if_neg hbr]
    push_neg at hbr
    exact ⟨by positivity, by rw [div_le_one (by norm_num)]; linarith⟩

/-- Gamma compression inverts gamma expansion up to `3e-5` on `[0,1]` (exact
except on the slivers around the branch thresholds). -/
theorem applyGammaCompress_applyGammaExpand (v : ℝ) (h0 : 0 ≤ v) (h1 : v ≤ 1) :
    |applyGammaCompress (applyGammaExpand v) - v| ≤ 3e-5 := by
  rw [applyGammaExpand]
  by_cases hbr : v > 0.04045
  · rw [if_pos hbr]
    set base := (v + 0.055) / 1.055 with hbase
    have hb0 : (1909 / 21100 : ℝ) < base := by rw [hbase]; rw [lt_div_iff₀ (by norm_num)]; linarith
    have hbnn : (0 : ℝ) ≤ base := by linarith
    rw [applyGammaCompress]
    by_cases hlin : base ^ (2.4 : ℝ) > 0.0031308
    · rw [if_pos hlin]
      have hcancel : (base ^ (2.4 : ℝ)) ^ ((1 : ℝ) / 2.4) = base := by
        rw [← Real.rpow_mul hbnn, show (2.4 : ℝ) * (1 / 2.4) = 1 by norm_num, Real.rpow_one]
      rw [hcancel, hbase]
      have : 1.055 * ((v + 0.055) / 1.055) - 0.055 = v := by ring
      rw [this]
      norm_num
    · rw [if_neg hlin]
      push_neg at hlin
      -- sliver: v just above 0.04045 but lin at or below the compress threshold
      have hlow : (0.0031306 : ℝ) ≤ base ^ (2.4 : ℝ) := by
        have h1 : ((1909 / 21100 : ℝ)) ^ (2.4 : ℝ) ≤ base ^ (2.4 : ℝ) :=
          Real.rpow_le_rpow (by norm_num) (le_of_lt hb0) (by norm_num)
        have h2 : (0.0031306 : ℝ) ≤ ((1909 / 21100 : ℝ)) ^ (2.4 : ℝ) := by
          rw [rpow_twelve_fifths _ (by norm_num)]
          exact rpow_nat_inv_le_of_pow_le (by norm_num) (by norm_num) (by norm_num)
        linarith
      have hbup : base ≤ 0.0904748 := by
        by_contra hcon
        push_neg at hcon
        have h3 : ((0.0904748 : ℝ)) ^ (2.4 : ℝ) < base ^ (2.4 : ℝ) :=
          Real.rpow_lt_rpow (by norm_num) hcon (by norm_num)
        have h4 : (0.0031308 : ℝ) ≤ ((0.0904748 : ℝ)) ^ (2.4 : ℝ) := by
          rw [rpow_twelve_fifths _ (by norm_num)]
          exact rpow_nat_inv_le_of_pow_le (by norm_num) (by norm_num) (by norm_num)
        linarith
      have hvup : v ≤ 1.055 * 0.0904748 - 0.055 := by
        have : v = 1.055 * base - 0.055 := by rw [hbase]; ring
        rw [this]
        linarith
      rw [abs_le]
      constructor <;> nlinarith
  · rw [if_neg hbr]
    push_neg at hbr
    rw [applyGammaCompress]
    by_cases hlin : v / 12.92 > 0.0031308
    · rw [if_pos hlin]
      have hvlow : (0.040449936 : ℝ) < v := by
        rw [gt_iff_lt, lt_div_iff₀ (by norm_num)] at hlin
        linarith
      have hlup : v / 12.92 ≤ 0.00313081 := by
        rw [div_le_iff₀ (by norm_num)]
        linarith
      have hr1 : (0.0904738 : ℝ) ≤ (v / 12.92) ^ ((1 : ℝ) / 2.4) := by
        have h1 : ((0.0031308 : ℝ)) ^ ((1 : ℝ) / 2.4) ≤ (v / 12.92) ^ ((1 : ℝ) / 2.4) :=
          Real.rpow_le_rpow (by norm_num) (le_of_lt hlin) (by norm_num)
        have h2 : (0.0904738 : ℝ) ≤ ((0.0031308 : ℝ)) ^ ((1 : ℝ) / 2.4) := by
          rw [rpow_five_twelfths _ (by norm_num)]
          exact rpow_nat_inv_le_of_pow_le (by norm_num) (by norm_num) (by norm_num)
        linarith
      have hr2 : (v / 12.92) ^ ((1 : ℝ) / 2.4) ≤ 0.090475 := by
        have h1 : (v / 12.92) ^ ((1 : ℝ) / 2.4) ≤ ((0.00313081 : ℝ)) ^ ((1 : ℝ) / 2.4) :=
          Real.rpow_le_rpow (by positivity) hlup (by norm_num)
        have h2 : ((0.00313081 : ℝ)) ^ ((1 : ℝ) / 2.4) ≤ 0.090475 := by
          rw [rpow_five_twelfths _ (by norm_num)]
          exact rpow_nat_inv_le_of_le_pow (by norm_num) (by positivity) (by norm_num)
            (by norm_num)
        linarith
      rw [abs_le]
      constructor <;> nlinarith
    · rw [if_neg hlin]
      have : 12.92 * (v / 12.92) - v = 0 := by ring
      rw [show 12.92 * (v / 12.92) - v = 0 by ring]
      norm_num

theorem rpow_seven_twelfths (u : ℝ) (hu : 0 ≤ u) :
    u ^ ((7 : ℝ) / 12) = (u ^ (7 : ℕ)) ^ ((12 : ℝ))⁻¹ := by
  rw [← Real.rpow_natCast u 7, ← Real.rpow_mul hu]
  norm_num

/-- Lipschitz bound for the power branch of gamma compression above the
threshold, from weighted AM-GM (Bernoulli). -/
theorem gammaCompress_power_lipschitz (x y : ℝ) (hx : 0.0031308 ≤ x) (hxy : x ≤ y) :
    1.055 * y ^ ((1 : ℝ) / 2.4) - 1.055 * x ^ ((1 : ℝ) / 2.4) ≤ 12.92 * (y - x) := by
  have hx0 : (0 : ℝ) < x := by linarith
  have hy0 : (0 : ℝ) < y := by linarith
  have hp : ((1 : ℝ) / 2.4) = 5 / 12 := by norm_num
  rw [hp]
  have hgm : y ^ ((5 : ℝ) / 12) * x ^ ((7 : ℝ) / 12) ≤ 5 / 12 * y + 7 / 12 * x := by
    have := Real.geom_mean_le_arith_mean2_weighted (by norm_num : (0 : ℝ) ≤ 5 / 12)
      (by norm_num : (0 : ℝ) ≤ 7 / 12) (le_of_lt hy0) (le_of_lt hx0) (by norm_num)
    exact this
  have hxsplit : x ^ ((5 : ℝ) / 12) * x ^ ((7 : ℝ) / 12) = x := by
    rw [← Real.rpow_add hx0]
    norm_num
  have hx712pos : (0 : ℝ) < x ^ ((7 : ℝ) / 12) := Real.rpow_pos_of_pos hx0 _
  have hx712lb : (0.0345 : ℝ) ≤ x ^ ((7 : ℝ) / 12) := by
    have h1 : ((0.0031308 : ℝ)) ^ ((7 : ℝ) / 12) ≤ x ^ ((7 : ℝ) / 12) :=
      Real.rpow_le_rpow (by norm_num) hx (by norm_num)
    have h2 : (0.0345 : ℝ) ≤ ((0.0031308 : ℝ)) ^ ((7 : ℝ) / 12) := by
      rw [rpow_seven_twelfths _ (by norm_num)]
      exact rpow_nat_inv_le_of_pow_le (by norm_num) (by norm_num) (by norm_num)
    linarith
  -- from AM-GM: y^(5/12) - x^(5/12) ≤ (5/12)(y - x) / x^(7/12)
  have hkey : y ^ ((5 : ℝ) / 12) - x ^ ((5 : ℝ) / 12) ≤ 5 / 12 * (y - x) / x ^ ((7 : ℝ) / 12) := by
    rw [le_div_iff₀ hx712pos]
    nlinarith [hgm, hxsplit, hx712pos]
  have hbound : 5 / 12 * (y - x) / x ^ ((7 : ℝ) / 12) ≤ 5 / 12 * (y - x) / 0.0345 := by
    apply div_le_div_of_nonneg_left (by linarith) (by norm_num) hx712lb
  nlinarith [hkey, hbound]

/-- Gamma compression is monotone up to a `1e-5` defect and 12.92-Lipschitz on
`[-1, 1.01]` up to the same defect (the two branches almost agree at the
threshold). -/
theorem applyGammaCompress_near_lipschitz (x y : ℝ) (hx : -1 ≤ x) (hxy : x ≤ y)
    (hy : y ≤ 1.01) :
    |applyGammaCompress y - applyGammaCompress x| ≤ 12.92 * (y - x) + 1e-5 := by
  rw [applyGammaCompress, applyGammaCompress]
  by_cases hby : y > 0.0031308
  · rw [if_pos hby]
    have hpx0lb : (0.0904644 : ℝ) ≤ ((0.0031308 : ℝ)) ^ ((1 : ℝ) / 2.4) := by
      rw [rpow_five_twelfths _ (by norm_num)]
      exact rpow_nat_inv_le_of_pow_le (by norm_num) (by norm_num) (by norm_num)
    have hpx0ub : ((0.0031308 : ℝ)) ^ ((1 : ℝ) / 2.4) ≤ (0.095449936 / 1.055 : ℝ) := by
      rw [rpow_five_twelfths _ (by norm_num)]
      exact rpow_nat_inv_le_of_le_pow (by norm_num) (by positivity) (by positivity)
        (by norm_num)
    by_cases hbx : x > 0.0031308
    · rw [if_pos hbx]
      have hmono : x ^ ((1 : ℝ) / 2.4) ≤ y ^ ((1 : ℝ) / 2.4) :=
        Real.rpow_le_rpow (by linarith) hxy (by norm_num)
      have hlip := gammaCompress_power_lipschitz x y (le_of_lt hbx) hxy
      rw [abs_le]
      constructor <;> linarith
    · rw [if_neg hbx]
      push_neg at hbx
      have hlip := gammaCompress_power_lipschitz 0.0031308 y (le_refl _) (le_of_lt hby)
      have hmono : (0.0031308 : ℝ) ^ ((1 : ℝ) / 2.4) ≤ y ^ ((1 : ℝ) / 2.4) :=
        Real.rpow_le_rpow (by norm_num) (le_of_lt hby) (by norm_num)
      rw [abs_le]
      constructor <;> linarith
  · rw [if_neg hby]
    have hbx : ¬x > 0.0031308 := by push_neg at hby ⊢; linarith
    rw [if_neg hbx]
    rw [abs_le]
    constructor <;> linarith

/-- Clamping to `[0,1]` can only move a point closer to any `v ∈ [0,1]`. -/
theorem clamp_dist_le (u v : ℝ) (h0 : 0 ≤ v) (h1 : v ≤ 1) :
    |max 0 (min 1 u) - v| ≤ |u - v| := by
  rcases le_total u 0 with hu | hu
  · rw [max_eq_left (by simp [min_le_iff]; right; linarith)]
    rw [abs_le]
    constructor <;>
      [skip; skip] <;> cases abs_cases (u - v) <;> push_neg at * <;> linarith
  · rcases le_total 1 u with hu1 | hu1
    · rw [min_eq_left hu1, max_eq_right (by norm_num)]
      cases abs_cases (u - v) with
      | inl h => rw [abs_le]; constructor <;> linarith [h.1]
      | inr h => rw [abs_le]; constructor <;> linarith [h.1]
    · rw [min_eq_right hu1, max_eq_right hu]

/-- Per-channel round-trip: if the reconstructed linear value is within `1e-4`
of the true one, compressing, clamping, scaling and rounding recovers the
original byte exactly. -/
theorem roundtrip_channel (c : ℕ) (hc : c ≤ 255) (w : ℝ)
    (hw : |w - applyGammaExpand ((c : ℝ) / 255)| ≤ 1e-4) :
    jsRoundR (max 0 (min 1 (applyGammaCompress w)) * 255) = (c : ℤ) := by
  have hv0 : (0 : ℝ) ≤ (c : ℝ) / 255 := by positivity
  have hv1 : (c : ℝ) / 255 ≤ 1 := by
    rw [div_le_one (by norm_num)]
    exact_mod_cast hc
  obtain ⟨hl0, hl1⟩ := applyGammaExpand_bounds ((c : ℝ) / 255) hv0 hv1
  have hcancel := applyGammaCompress_applyGammaExpand ((c : ℝ) / 255) hv0 hv1
  set v : ℝ := (c : ℝ) / 255 with hvdef
  set lin : ℝ := applyGammaExpand v with hlindef
  have habs := abs_le.mp hw
  have hlips : |applyGammaCompress w - applyGammaCompress lin| ≤ 12.92 * 1e-4 + 1e-5 := by
    rcases le_total w lin with hord | hord
    · have h := applyGammaCompress_near_lipschitz w lin (by linarith) hord (by linarith)
      rw [abs_sub_comm]
      calc |applyGammaCompress lin - applyGammaCompress w| ≤ 12.92 * (lin - w) + 1e-5 := h
        _ ≤ 12.92 * 1e-4 + 1e-5 := by linarith
    · have h := applyGammaCompress_near_lipschitz lin w (by linarith) hord (by linarith)
      calc |applyGammaCompress w - applyGammaCompress lin| ≤ 12.92 * (w - lin) + 1e-5 := h
        _ ≤ 12.92 * 1e-4 + 1e-5 := by linarith
  have hclamp := clamp_dist_le (applyGammaCompress w) v hv0 hv1
  have htri := abs_sub_le (applyGammaCompress w) (applyGammaCompress lin) v
  have hfinal : |max 0 (min 1 (applyGammaCompress w)) - v| ≤ 0.00134 := by linarith
  have hfa := abs_le.mp hfinal
  rw [jsRoundR]
  have hcv : (c : ℝ) = v * 255 := by rw [hvdef]; field_simp
  rw [Int.floor_eq_iff]
  constructor
  · push_cast
    nlinarith
  · push_cast
    nlinarith

theorem xyzToRgb_eval (x y z : ℝ) : xyzToRgb x y z =
    (jsRoundR (max 0 (min 1 (applyGammaCompress
        (x / 100 * 3.2406 + y / 100 * -1.5372 + z / 100 * -0.4986))) * 255),
     jsRoundR (max 0 (min 1 (applyGammaCompress
        (x / 100 * -0.9689 + y / 100 * 1.8758 + z / 100 * 0.0415))) * 255),
     jsRoundR (max 0 (min 1 (applyGammaCompress
        (x / 100 * 0.0557 + y / 100 * -0.2040 + z / 100 * 1.0570))) * 255)) := rfl

set_option maxHeartbeats 3000000 in
/-- The Lab round trip is an exact identity on 8-bit RGB triples: the total
analysis error (matrix defect, gamma cancellation, transform cancellation)
stays below half a quantization step. -/
theorem labToRgb_rgbToLab_exact (r g b : ℕ) (hr : r ≤ 255) (hg : g ≤ 255) (hb : b ≤ 255) :
    labToRgb (rgbToLab (r : ℝ) (g : ℝ) (b : ℝ)).l (rgbToLab (r : ℝ) (g : ℝ) (b : ℝ)).a
      (rgbToLab (r : ℝ) (g : ℝ) (b : ℝ)).b = ((r : ℤ), (g : ℤ), (b : ℤ)) := by
  set lr : ℝ := applyGammaExpand ((r : ℝ) / 255) with hlrdef
  set lg : ℝ := applyGammaExpand ((g : ℝ) / 255) with hlgdef
  set lb : ℝ := applyGammaExpand ((b : ℝ) / 255) with hlbdef
  have hunf : rgbToLab (r : ℝ) (g : ℝ) (b : ℝ) =
      xyzToLab (lr * 100 * 0.4124 + lg * 100 * 0.3576 + lb * 100 * 0.1805)
        (lr * 100 * 0.2126 + lg * 100 * 0.7152 + lb * 100 * 0.0722)
        (lr * 100 * 0.0193 + lg * 100 * 0.1192 + lb * 100 * 0.9505) := by
    simp only [rgbToLab, rgbToXyz]
  rw [hunf]
  set fx : ℝ := applyTransform
    ((lr * 100 * 0.4124 + lg * 100 * 0.3576 + lb * 100 * 0.1805) / 95.047) with hfxdef
  set fy : ℝ := applyTransform
    ((lr * 100 * 0.2126 + lg * 100 * 0.7152 + lb * 100 * 0.0722) / 100.0) with hfydef
  set fz : ℝ := applyTransform
    ((lr * 100 * 0.0193 + lg * 100 * 0.1192 + lb * 100 * 0.9505) / 108.883) with hfzdef
  have hunf2 : xyzToLab (lr * 100 * 0.4124 + lg * 100 * 0.3576 + lb * 100 * 0.1805)
        (lr * 100 * 0.2126 + lg * 100 * 0.7152 + lb * 100 * 0.0722)
        (lr * 100 * 0.0193 + lg * 100 * 0.1192 + lb * 100 * 0.9505) =
      ⟨116 * fy - 16, 500 * (fx - fy), 200 * (fy - fz)⟩ := by
    simp only [xyzToLab]
  rw [hunf2]
  dsimp only
  have e1 : (116 * fy - 16 + 16) / 116 = fy := by ring
  have e2 : 500 * (fx - fy) / 500 + fy = fx := by ring
  have e3 : fy - 200 * (fy - fz) / 200 = fz := by ring
  have hunf3 : labToRgb (116 * fy - 16) (500 * (fx - fy)) (200 * (fy - fz)) =
      xyzToRgb (95.047 * applyInverseTransform fx) (100.0 * applyInverseTransform fy)
        (108.883 * applyInverseTransform fz) := by
    simp only [labToRgb, labToXyz, e1, e2, e3]
  rw [hunf3]
  have hr1 : ((r : ℝ) / 255) <= 1 := by
    rw [div_le_one (by norm_num : (0:ℝ) < 255)]; exact_mod_cast hr
  have hg1 : ((g : ℝ) / 255) <= 1 := by
    rw [div_le_one (by norm_num : (0:ℝ) < 255)]; exact_mod_cast hg
  have hb1 : ((b : ℝ) / 255) <= 1 := by
    rw [div_le_one (by norm_num : (0:ℝ) < 255)]; exact_mod_cast hb
  obtain ⟨hlr0, hlr1⟩ := applyGammaExpand_bounds ((r : ℝ) / 255) (by positivity) hr1
  obtain ⟨hlg0, hlg1⟩ := applyGammaExpand_bounds ((g : ℝ) / 255) (by positivity) hg1
  obtain ⟨hlb0, hlb1⟩ := applyGammaExpand_bounds ((b : ℝ) / 255) (by positivity) hb1
  rw [← hlrdef] at hlr0 hlr1
  rw [← hlgdef] at hlg0 hlg1
  rw [← hlbdef] at hlb0 hlb1
  have hX0 : (0:ℝ) ≤ (lr * 100 * 0.4124 + lg * 100 * 0.3576 + lb * 100 * 0.1805) / 95.047 := by
    rw [le_div_iff₀ (by norm_num : (0:ℝ) < 95.047)]; nlinarith
  have hX1 : (lr * 100 * 0.4124 + lg * 100 * 0.3576 + lb * 100 * 0.1805) / 95.047 ≤ 1.01 := by
    rw [div_le_iff₀ (by norm_num : (0:ℝ) < 95.047)]; nlinarith
  have hY0 : (0:ℝ) ≤ (lr * 100 * 0.2126 + lg * 100 * 0.7152 + lb * 100 * 0.0722) / 100.0 := by
    rw [le_div_iff₀ (by norm_num : (0:ℝ) < 100.0)]; nlinarith
  have hY1 : (lr * 100 * 0.2126 + lg * 100 * 0.7152 + lb * 100 * 0.0722) / 100.0 ≤ 1.01 := by
    rw [div_le_iff₀ (by norm_num : (0:ℝ) < 100.0)]; nlinarith
  have hZ0 : (0:ℝ) ≤ (lr * 100 * 0.0193 + lg * 100 * 0.1192 + lb * 100 * 0.9505) / 108.883 := by
    rw [le_div_iff₀ (by norm_num : (0:ℝ) < 108.883)]; nlinarith
  have hZ1 : (lr * 100 * 0.0193 + lg * 100 * 0.1192 + lb * 100 * 0.9505) / 108.883 ≤ 1.01 := by
    rw [div_le_iff₀ (by norm_num : (0:ℝ) < 108.883)]; nlinarith
  have hu := applyInverseTransform_applyTransform
    ((lr * 100 * 0.4124 + lg * 100 * 0.3576 + lb * 100 * 0.1805) / 95.047) hX0 hX1
  have hv := applyInverseTransform_applyTransform
    ((lr * 100 * 0.2126 + lg * 100 * 0.7152 + lb * 100 * 0.0722) / 100.0) hY0 hY1
  have hw := applyInverseTransform_applyTransform
    ((lr * 100 * 0.0193 + lg * 100 * 0.1192 + lb * 100 * 0.9505) / 108.883) hZ0 hZ1
  rw [← hfxdef] at hu
  rw [← hfydef] at hv
  rw [← hfzdef] at hw
  rw [abs_le] at hu hv hw
  have keyX : (lr * 100 * 0.4124 + lg * 100 * 0.3576 + lb * 100 * 0.1805) / 95.047 * 95.047
      = lr * 100 * 0.4124 + lg * 100 * 0.3576 + lb * 100 * 0.1805 :=
    div_mul_cancel₀ _ (by norm_num)
  have keyY : (lr * 100 * 0.2126 + lg * 100 * 0.7152 + lb * 100 * 0.0722) / 100.0 * 100.0
      = lr * 100 * 0.2126 + lg * 100 * 0.7152 + lb * 100 * 0.0722 :=
    div_mul_cancel₀ _ (by norm_num)
  have keyZ : (lr * 100 * 0.0193 + lg * 100 * 0.1192 + lb * 100 * 0.9505) / 108.883 * 108.883
      = lr * 100 * 0.0193 + lg * 100 * 0.1192 + lb * 100 * 0.9505 :=
    div_mul_cancel₀ _ (by norm_num)
  have hu1 : 95.047 * applyInverseTransform fx
      - (lr * 100 * 0.4124 + lg * 100 * 0.3576 + lb * 100 * 0.1805) ≤ 0.0000951 := by
    linarith [hu.2, keyX]
  have hu2 : -0.0000951 ≤ 95.047 * applyInverseTransform fx
      - (lr * 100 * 0.4124 + lg * 100 * 0.3576 + lb * 100 * 0.1805) := by
    linarith [hu.1, keyX]
  have hv1 : 100.0 * applyInverseTransform fy
      - (lr * 100 * 0.2126 + lg * 100 * 0.7152 + lb * 100 * 0.0722) ≤ 0.000101 := by
    linarith [hv.2, keyY]
  have hv2 : -0.000101 ≤ 100.0 * applyInverseTransform fy
      - (lr * 100 * 0.2126 + lg * 100 * 0.7152 + lb * 100 * 0.0722) := by
    linarith [hv.1, keyY]
  have hw1 : 108.883 * applyInverseTransform fz
      - (lr * 100 * 0.0193 + lg * 100 * 0.1192 + lb * 100 * 0.9505) ≤ 0.000109 := by
    linarith [hw.2, keyZ]
  have hw2 : -0.000109 ≤ 108.883 * applyInverseTransform fz
      - (lr * 100 * 0.0193 + lg * 100 * 0.1192 + lb * 100 * 0.9505) := by
    linarith [hw.1, keyZ]
  have h1 : jsRoundR (max 0 (min 1 (applyGammaCompress
      (95.047 * applyInverseTransform fx / 100 * 3.2406 +
        100.0 * applyInverseTransform fy / 100 * -1.5372 +
        108.883 * applyInverseTransform fz / 100 * -0.4986))) * 255) = (r : ℤ) := by
    refine roundtrip_channel r hr _ ?_
    rw [← hlrdef, abs_le]
    constructor <;> linarith
  have h2 : jsRoundR (max 0 (min 1 (applyGammaCompress
      (95.047 * applyInverseTransform fx / 100 * -0.9689 +
        100.0 * applyInverseTransform fy / 100 * 1.8758 +
        108.883 * applyInverseTransform fz / 100 * 0.0415))) * 255) = (g : ℤ) := by
    refine roundtrip_channel g hg _ ?_
    rw [← hlgdef, abs_le]
    constructor <;> linarith
  have h3 : jsRoundR (max 0 (min 1 (applyGammaCompress
      (95.047 * applyInverseTransform fx / 100 * 0.0557 +
        100.0 * applyInverseTransform fy / 100 * -0.2040 +
        108.883 * applyInverseTransform fz / 100 * 1.0570))) * 255) = (b : ℤ) := by
    refine roundtrip_channel b hb _ ?_
    rw [← hlbdef, abs_le]
    constructor <;> linarith
  rw [xyzToRgb_eval, h1, h2, h3]

/-- C4: for every integer triple (r,g,b) in [0,255]^3, labToRgb (rgbToLab (r,g,b))
differs from (r,g,b) by at most 1 in each channel (the conversions are mutual
inverses up to 8-bit rounding).  In fact the round trip is exact. -/
theorem rgb_lab_roundtrip (r g b : ℕ) (hr : r ≤ 255) (hg : g ≤ 255) (hb : b ≤ 255) :
    |(labToRgb (rgbToLab (r : ℝ) (g : ℝ) (b : ℝ)).l (rgbToLab (r : ℝ) (g : ℝ) (b : ℝ)).a
        (rgbToLab (r : ℝ) (g : ℝ) (b : ℝ)).b).1 - (r : ℤ)| ≤ 1 ∧
    |(labToRgb (rgbToLab (r : ℝ) (g : ℝ) (b : ℝ)).l (rgbToLab (r : ℝ) (g : ℝ) (b : ℝ)).a
        (rgbToLab (r : ℝ) (g : ℝ) (b : ℝ)).b).2.1 - (g : ℤ)| ≤ 1 ∧
    |(labToRgb (rgbToLab (r : ℝ) (g : ℝ) (b : ℝ)).l (rgbToLab (r : ℝ) (g : ℝ) (b : ℝ)).a
        (rgbToLab (r : ℝ) (g : ℝ) (b : ℝ)).b).2.2 - (b : ℤ)| ≤ 1 := by
  rw [labToRgb_rgbToLab_exact r g b hr hg hb]
  norm_num

/-- Witness for the round-trip claim at the concrete triple (12, 200, 54). -/
theorem rgb_lab_roundtrip_witness :
    (12 : ℕ) ≤ 255 ∧ (200 : ℕ) ≤ 255 ∧ (54 : ℕ) ≤ 255 ∧
    (|(labToRgb (rgbToLab ((12:ℕ) : ℝ) ((200:ℕ) : ℝ) ((54:ℕ) : ℝ)).l
          (rgbToLab ((12:ℕ) : ℝ) ((200:ℕ) : ℝ) ((54:ℕ) : ℝ)).a
          (rgbToLab ((12:ℕ) : ℝ) ((200:ℕ) : ℝ) ((54:ℕ) : ℝ)).b).1 - ((12:ℕ) : ℤ)| ≤ 1 ∧
     |(labToRgb (rgbToLab ((12:ℕ) : ℝ) ((200:ℕ) : ℝ) ((54:ℕ) : ℝ)).l
          (rgbToLab ((12:ℕ) : ℝ) ((200:ℕ) : ℝ) ((54:ℕ) : ℝ)).a
          (rgbToLab ((12:ℕ) : ℝ) ((200:ℕ) : ℝ) ((54:ℕ) : ℝ)).b).2.1 - ((200:ℕ) : ℤ)| ≤ 1 ∧
     |(labToRgb (rgbToLab ((12:ℕ) : ℝ) ((200:ℕ) : ℝ) ((54:ℕ) : ℝ)).l
          (rgbToLab ((12:ℕ) : ℝ) ((200:ℕ) : ℝ) ((54:ℕ) : ℝ)).a
          (rgbToLab ((12:ℕ) : ℝ) ((200:ℕ) : ℝ) ((54:ℕ) : ℝ)).b).2.2 - ((54:ℕ) : ℤ)| ≤ 1) :=
  ⟨by norm_num, by norm_num, by norm_num,
   rgb_lab_roundtrip 12 200 54 (by norm_num) (by norm_num) (by norm_num)⟩

end MetalDetect
